import Mathlib

/-!
# GlobalDNS target-project actions

A shallow embedding of `pkg/api/customization/globaldns/action_globaldns.go`:
the action handler that adds projects to, or removes projects from, the target
list of a GlobalDNS record, and the retrying updater that persists the new list.

The backing store, the access checks and the request body are external
collaborators.  They are modelled as deterministic oracles collected in `Env`;
every call the handler issues to the store, and every response it writes, is
appended to an event log (`World`).  Store oracles are indexed by the number of
calls of the same kind issued so far, so an environment can script any sequence
of successes, conflicts and failures.  Sleeping between attempts is not
modelled.
-/

set_option linter.unusedVariables false

namespace GlobalDNSAction

/-! ## Data model -/

/-- Errors the handler can return. -/
inductive Err where
  /-- An error built by `fmt.Errorf`. -/
  | errorf (msg : String)
  /-- An error built by `httperror.NewAPIError code msg`. -/
  | apiError (code : String) (msg : String)
  /-- A status error of the backing store, with its reason. -/
  | status (reason : String) (msg : String)
  /-- The error `wait.ExponentialBackoff` returns when its steps are used up. -/
  | waitTimeout
  /-- A timeout error of `wait.ExponentialBackoff` that carries a cause. -/
  | waitTimeoutCausedBy (cause : Err)
  /-- Any other error of a collaborator. -/
  | other (msg : String)
  deriving DecidableEq, Repr

/-- Modelled from the spec: the access types of `globalnamespaceaccess`, whose
declaration is not in the source file (owner, member, readonly, none). -/
inductive AccessType where
  | OwnerAccess
  | MemberAccess
  | ReadonlyAccess
  | NoAccess
  deriving DecidableEq, Repr

/-- An entry of a record's member list. -/
structure Member where
  UserPrincipalName : String
  AccessType : String
  deriving DecidableEq, Repr

/-- The fields of a `v3.GlobalDNS` the handler observes or mutates. -/
structure GlobalDNS where
  Namespace : String
  Name : String
  ResourceVersion : String
  Annotations : List (String × String)
  Members : List Member
  ProjectNames : List String
  MultiClusterAppName : String
  deriving DecidableEq, Repr

/-- The parts of a `types.APIContext` the handler reads. -/
structure APIContext where
  /-- The value of `request.ID`. -/
  ID : String
  /-- The value of the impersonation header of the request. -/
  ImpersonateUser : String
  /-- The result of `parse.ReadBody`: the decoded body, each field already
  coerced to a string slice, or the decoding error. -/
  Body : Except Err (List (String × List String))

/-- What the handler does to the outside world, in the order it does it. -/
inductive Event where
  /-- A call `access.ByID` for the record id. -/
  | byID (id : String)
  /-- A call `GlobalDNSes.GetNamespaced namespace name`. -/
  | get (ns : String) (name : String)
  /-- A call `GlobalDNSes.Update obj` with its outcome (`none`: committed). -/
  | update (obj : GlobalDNS) (result : Option Err)
  /-- A call `request.WriteResponse code body`. -/
  | response (code : Nat) (body : List (String × String))
  deriving DecidableEq, Repr

/-- The event log. -/
abbrev World := List Event

/-- The collaborators of the handler (the fields of `Wrapper` and the package
level helpers), as deterministic oracles. -/
structure Env where
  /-- The package constant `creatorIDAnn`, declared outside the source file. -/
  creatorIDAnn : String
  /-- The answer of `access.ByID` for a record id (`none`: no error). -/
  byID : String → Option Err
  /-- The answer of the `n`-th call of `GlobalDNSes.GetNamespaced`. -/
  getNamespaced : Nat → String → String → Except Err GlobalDNS
  /-- The answer of the `n`-th call of `GlobalDNSes.Update` (`none`: written). -/
  update : Nat → GlobalDNS → Option Err
  /-- The answer of `MemberAccess.GetAccessTypeOfCaller`. -/
  getAccessTypeOfCaller : String → String → String → List Member → Except Err AccessType
  /-- The answer of `MemberAccess.CheckCallerAccessToTargets` (`none`: allowed). -/
  checkCallerAccessToTargets : APIContext → List String → Option Err

/-! ## Constants -/

def addProjectsAction : String := "addProjects"

def removeProjectsAction : String := "removeProjects"

/-- The value of `client.UpdateGlobalDNSTargetsInputFieldProjectIDs`. -/
def UpdateGlobalDNSTargetsInputFieldProjectIDs : String := "projectIds"

/-- The code of `httperror.InvalidOption`. -/
def InvalidOption : String := "InvalidOption"

/-- The value of `http.StatusOK`. -/
def StatusOK : Nat := 200

/-- The value of `metav1.StatusReasonConflict`. -/
def StatusReasonConflict : String := "Conflict"

/-! ## Library helpers -/

/-- The function `strings.SplitN` for a one-character separator, on characters:
at most `n` pieces, the last one being the unsplit rest. -/
def splitNChars (sep : Char) : Nat → List Char → List (List Char)
  | 0, _ => []
  | 1, s => [s]
  | n + 2, s =>
    match s.span (fun c => c != sep) with
    | (a, []) => [a]
    | (a, _ :: rest) => a :: splitNChars sep (n + 1) rest

/-- The function `strings.SplitN s sep n` for a one-character separator. -/
def SplitN (s : String) (sep : Char) (n : Nat) : List String :=
  (splitNChars sep n s.toList).map String.mk

/-- The function `apierrors.IsConflict`. -/
def IsConflict : Err → Bool
  | .status reason _ => reason == StatusReasonConflict
  | _ => false

/-- A Go `map[string]bool`, read with the zero value `false` for absent keys. -/
abbrev StringSet := String → Bool

/-- The result of `make(map[string]bool)`. -/
def emptySet : StringSet := fun _ => false

/-- The assignment `m[p] = true`. -/
def setTrue (m : StringSet) (p : String) : StringSet :=
  fun q => if q = p then true else m q

/-- Number of `GetNamespaced` calls in a log. -/
def numGets (w : World) : Nat :=
  w.countP (fun e => match e with | .get _ _ => true | _ => false)

/-- Number of `Update` calls in a log. -/
def numUpdates (w : World) : Nat :=
  w.countP (fun e => match e with | .update _ _ => true | _ => false)

/-- Modelled from the spec: `wait.ExponentialBackoff` of the vendored
`k8s.io/apimachinery`, which is not in the source file.  The condition is tried
at most `steps` times; an attempt that reports an error or completion ends the
loop with that error; when the steps are used up the result is a timeout error
whose cause is the last error the condition reported. -/
def ExponentialBackoff (steps : Nat) (condition : World → (Bool × Option Err) × World)
    (last : Option Err) (w : World) : Option Err × World :=
  match steps with
  | 0 =>
    match last with
    | none => (some Err.waitTimeout, w)
    | some cause => (some (Err.waitTimeoutCausedBy cause), w)
  | n + 1 =>
    match condition w with
    | ((_, some err), w1) => (some err, w1)
    | ((true, none), w1) => (none, w1)
    | ((false, none), w1) => ExponentialBackoff n condition none w1

/-! ## The handler -/

/-- The closure `updateGDNS` passes to `wait.ExponentialBackoff`: one attempt. -/
def updateAttempt (env : Env) (gDNS : GlobalDNS) (targetProjects : List String)
    (w : World) : (Bool × Option Err) × World :=
  let w1 := w ++ [Event.get gDNS.Namespace gDNS.Name]
  match env.getNamespaced (numGets w) gDNS.Namespace gDNS.Name with
  | .error err => ((false, some err), w1)
  | .ok gDNSlatest =>
    let obj := { gDNSlatest with ProjectNames := targetProjects }
    match env.update (numUpdates w1) obj with
    | some err =>
      if IsConflict err then ((false, none), w1 ++ [Event.update obj (some err)])
      else ((false, some err), w1 ++ [Event.update obj (some err)])
    | none => ((true, none), w1 ++ [Event.update obj none])

/-- The number of steps of the backoff in `updateGDNS`. -/
def backoffSteps : Nat := 7

/-- The method `Wrapper.updateGDNS`. -/
def updateGDNS (env : Env) (gDNS : GlobalDNS) (targetProjects : List String)
    (message : String) (w : World) : Option Err × World :=
  match ExponentialBackoff backoffSteps (updateAttempt env gDNS targetProjects) none w with
  | (some err, w1) => (some err, w1)
  | (none, w1) => (none, w1 ++ [Event.response StatusOK [("message", message)]])

/-- The method `Wrapper.addProjects`. -/
def addProjects (env : Env) (gDNS : GlobalDNS) (request : APIContext)
    (inputProjects : List String) (existingProjects : StringSet) (w : World) :
    Option Err × World :=
  if gDNS.MultiClusterAppName ≠ "" then
    (some (Err.apiError InvalidOption
      ("cannot add projects to globaldns as targets if multiclusterappID is set "
        ++ gDNS.MultiClusterAppName)), w)
  else
    match env.checkCallerAccessToTargets request inputProjects with
    | some err => (some err, w)
    | none =>
      let projectsToAdd := inputProjects.foldl
        (fun acc p => if !existingProjects p then acc ++ [p] else acc) []
      updateGDNS env gDNS projectsToAdd "addedProjects" w

/-- The method `Wrapper.removeProjects`. -/
def removeProjects (env : Env) (gDNS : GlobalDNS) (existingProjects : StringSet)
    (inputProjects : List String) (w : World) : Option Err × World :=
  let toRemoveProjects := inputProjects.foldl setTrue emptySet
  let finalProjects := gDNS.ProjectNames.foldl
    (fun acc p => if !toRemoveProjects p then acc ++ [p] else acc) []
  updateGDNS env gDNS finalProjects "removedProjects" w

/-- The method `Wrapper.ActionHandler`. -/
def ActionHandler (env : Env) (actionName : String) (request : APIContext) (w : World) :
    Option Err × World :=
  let w0 := w ++ [Event.byID request.ID]
  match env.byID request.ID with
  | some err => (some err, w0)
  | none =>
    match SplitN request.ID ':' 2 with
    | [ns, name] =>
      let w1 := w0 ++ [Event.get ns name]
      match env.getNamespaced (numGets w0) ns name with
      | .error err => (some err, w1)
      | .ok gDNS =>
        match gDNS.Annotations.lookup env.creatorIDAnn with
        | none =>
          (some (Err.errorf ("GlobalDNS " ++ gDNS.Name ++ " has no creatorId annotation")), w1)
        | some creatorID =>
          match env.getAccessTypeOfCaller request.ImpersonateUser creatorID gDNS.Name
              gDNS.Members with
          | .error err => (some err, w1)
          | .ok accessType =>
            if accessType ≠ AccessType.OwnerAccess then
              (some (Err.errorf "only owners can modify global DNS target projects"), w1)
            else
              match request.Body with
              | .error err => (some err, w1)
              | .ok actionInput =>
                let inputProjects :=
                  (actionInput.lookup UpdateGlobalDNSTargetsInputFieldProjectIDs).getD []
                let existingProjects := gDNS.ProjectNames.foldl setTrue emptySet
                if actionName = addProjectsAction then
                  addProjects env gDNS request inputProjects existingProjects w1
                else if actionName = removeProjectsAction then
                  removeProjects env gDNS existingProjects inputProjects w1
                else
                  (some (Err.errorf ("bad action for global dns " ++ actionName)), w1)
    | _ => (some (Err.errorf "incorrect global DNS ID"), w0)

/-! ## Observations on a log -/

/-- The objects the store accepted, oldest first. -/
def committed (w : World) : List GlobalDNS :=
  w.filterMap (fun e => match e with | .update obj none => some obj | _ => none)

/-- The responses written, oldest first. -/
def responses (w : World) : List (Nat × List (String × String)) :=
  w.filterMap (fun e => match e with | .response c b => some (c, b) | _ => none)

/-- The outcome of attempt number `r` (by reads) and `u` (by writes) of the
retrying updater is a write conflict: the read succeeds and the write of the
re-read record with the new targets is refused with a conflict. -/
def conflictAt (env : Env) (gDNS : GlobalDNS) (targetProjects : List String) (r u : Nat) :
    Bool :=
  match env.getNamespaced r gDNS.Namespace gDNS.Name with
  | .error _ => false
  | .ok gDNSlatest =>
    match env.update u { gDNSlatest with ProjectNames := targetProjects } with
    | some err => IsConflict err
    | none => false

/-- The attempt with read number `r` and write number `u` succeeds: the read
succeeds and the store accepts the write. -/
def successAt (env : Env) (gDNS : GlobalDNS) (targetProjects : List String) (r u : Nat) :
    Bool :=
  match env.getNamespaced r gDNS.Namespace gDNS.Name with
  | .error _ => false
  | .ok gDNSlatest =>
    match env.update u { gDNSlatest with ProjectNames := targetProjects } with
    | some _ => false
    | none => true

/-- The read number `r` of the retrying updater fails with the error `e`. -/
def readFailsAt (env : Env) (gDNS : GlobalDNS) (r : Nat) (e : Err) : Bool :=
  match env.getNamespaced r gDNS.Namespace gDNS.Name with
  | .error err => decide (err = e)
  | .ok _ => false

/-- In the attempt with read number `r` and write number `u` the read succeeds
and the write fails with the error `e`, which is not a conflict. -/
def writeFailsAt (env : Env) (gDNS : GlobalDNS) (targetProjects : List String) (r u : Nat)
    (e : Err) : Bool :=
  match env.getNamespaced r gDNS.Namespace gDNS.Name with
  | .error _ => false
  | .ok gDNSlatest =>
    match env.update u { gDNSlatest with ProjectNames := targetProjects } with
    | some err => !IsConflict err && decide (err = e)
    | none => false

/-- The handler's checks before the dispatch on the action name all pass for an
owner: the record is accessible, its id splits in two, the record read is
`gDNS`, it has a creator annotation, the caller resolves to owner, and the body
decodes to the project list `input`. -/
def OwnerDispatch (env : Env) (request : APIContext) (w : World) (gDNS : GlobalDNS)
    (input : List String) : Prop :=
  env.byID request.ID = none ∧
  ∃ ns name creatorID body,
    SplitN request.ID ':' 2 = [ns, name] ∧
    env.getNamespaced (numGets w) ns name = .ok gDNS ∧
    gDNS.Annotations.lookup env.creatorIDAnn = some creatorID ∧
    env.getAccessTypeOfCaller request.ImpersonateUser creatorID gDNS.Name gDNS.Members
      = .ok AccessType.OwnerAccess ∧
    request.Body = .ok body ∧
    (body.lookup UpdateGlobalDNSTargetsInputFieldProjectIDs).getD [] = input

/-- The project list the handler decodes from a request body (empty when the
body cannot be read). -/
def decodedInput (request : APIContext) : List String :=
  match request.Body with
  | .ok body => (body.lookup UpdateGlobalDNSTargetsInputFieldProjectIDs).getD []
  | .error _ => []

/-- The environment `base` with a store that holds `rec` and is touched by
nobody else: every read returns `rec`, every write is accepted. -/
def holding (base : Env) (rec : GlobalDNS) : Env :=
  { base with
    getNamespaced := fun _ _ _ => .ok rec
    update := fun _ _ => none }

/-- The record the store holds after the handler served one action on a store
holding `rec`: the object it committed, or `rec` when it committed nothing. -/
def applyAction (base : Env) (rec : GlobalDNS) (a : String × APIContext) : GlobalDNS :=
  ((committed (ActionHandler (holding base rec) a.1 a.2 []).2).getLast?).getD rec

/-- The record the store holds after a sequence of actions, served one after
the other. -/
def applyActions (base : Env) (rec : GlobalDNS) (actions : List (String × APIContext)) :
    GlobalDNS :=
  actions.foldl (applyAction base) rec

/-! ## Sample data -/

/-- A record `ns:dns` created by `u1` with the given targets and binding. -/
def sampleRecord (projects : List String) (mca : String) : GlobalDNS :=
  { Namespace := "ns", Name := "dns", ResourceVersion := "1",
    Annotations := [("field.cattle.io/creatorId", "u1")], Members := [],
    ProjectNames := projects, MultiClusterAppName := mca }

/-- An environment with an empty store in which every caller resolves to
`access` and may use every project. -/
def sampleEnv (access : AccessType) : Env :=
  { creatorIDAnn := "field.cattle.io/creatorId"
    byID := fun _ => none
    getNamespaced := fun _ _ _ => .error (Err.status "NotFound" "not found")
    update := fun _ _ => some (Err.status "NotFound" "not found")
    getAccessTypeOfCaller := fun _ _ _ _ => .ok access
    checkCallerAccessToTargets := fun _ _ => none }

/-- A request of `u1` on the record `ns:dns` with the given project ids. -/
def sampleRequest (input : List String) : APIContext :=
  { ID := "ns:dns", ImpersonateUser := "u1",
    Body := .ok [(UpdateGlobalDNSTargetsInputFieldProjectIDs, input)] }

/-- The environment `holding (sampleEnv owner) rec` whose first `k` writes are
refused with a conflict. -/
def conflictEnv (rec : GlobalDNS) (k : Nat) : Env :=
  { holding (sampleEnv AccessType.OwnerAccess) rec with
    update := fun n _ =>
      if n < k then some (Err.status StatusReasonConflict "conflict") else none }

/-- The environment `holding (sampleEnv owner) rec` with scripted faults: read
number `n` fails with `readFault n` when that is an error, write number `n`
with `writeFault n`. -/
def scriptedEnv (rec : GlobalDNS) (readFault writeFault : Nat → Option Err) : Env :=
  { holding (sampleEnv AccessType.OwnerAccess) rec with
    getNamespaced := fun n _ _ =>
      match readFault n with
      | some e => .error e
      | none => .ok rec
    update := fun n _ => writeFault n }

/-- A store holding `rec` whose first two writes conflict and whose third write
is refused as forbidden. -/
def writeFaultEnv (rec : GlobalDNS) : Env :=
  scriptedEnv rec (fun _ => none)
    (fun n => if n < 2 then some (Err.status StatusReasonConflict "conflict")
      else some (Err.status "Forbidden" "forbidden"))

/-- A store holding `rec` whose first write conflicts and whose second read
fails. -/
def readFaultEnv (rec : GlobalDNS) : Env :=
  scriptedEnv rec (fun n => if n = 1 then some (Err.other "connection refused") else none)
    (fun _ => some (Err.status StatusReasonConflict "conflict"))

/-- The objects submitted to the store, accepted or refused, oldest first. -/
def submitted (w : World) : List GlobalDNS :=
  w.filterMap (fun e => match e with | .update obj _ => some obj | _ => none)

/-- The record with its multi-cluster-application binding blanked. -/
def clearBinding (r : GlobalDNS) : GlobalDNS :=
  { r with MultiClusterAppName := "" }

/-- The event with the binding of the submitted object blanked. -/
def eraseBinding : Event → Event
  | .update obj result => .update (clearBinding obj) result
  | e => e

/-- Two environments that differ at most in the multi-cluster-application
binding of the records the store returns and in the answers of the target
authorizer: the access checks agree, reads agree up to the binding, and the
answer of the store to a write does not depend on the binding of the object. -/
def AgreeUpToBinding (env1 env2 : Env) : Prop :=
  env1.creatorIDAnn = env2.creatorIDAnn ∧
  env1.byID = env2.byID ∧
  env1.getAccessTypeOfCaller = env2.getAccessTypeOfCaller ∧
  (∀ n ns name,
    (env1.getNamespaced n ns name).map clearBinding
      = (env2.getNamespaced n ns name).map clearBinding) ∧
  (∀ n o1 o2, clearBinding o1 = clearBinding o2 → env1.update n o1 = env2.update n o2)

/-- The environment `holding (sampleEnv owner) rec` whose target authorizer
denies every input that holds an id of `denied`. -/
def guardedEnv (rec : GlobalDNS) (denied : List String) : Env :=
  { holding (sampleEnv AccessType.OwnerAccess) rec with
    checkCallerAccessToTargets := fun _ input =>
      if input.any (fun p => denied.contains p) then
        some (Err.apiError "PermissionDenied" "access to project denied")
      else none }

/-- A store whose first read returns `first` and whose later reads return
`later` (somebody else changed the record after the handler read it); every
write is accepted. -/
def rereadEnv (first later : GlobalDNS) : Env :=
  { holding (sampleEnv AccessType.OwnerAccess) first with
    getNamespaced := fun n _ _ => if n = 0 then .ok first else .ok later }

/-- A request of `u1` with the given record id and project ids. -/
def requestFor (id : String) (input : List String) : APIContext :=
  { ID := id, ImpersonateUser := "u1",
    Body := .ok [(UpdateGlobalDNSTargetsInputFieldProjectIDs, input)] }

/-- The environment `holding (sampleEnv owner) rec` in which `access.ByID`
fails for every id. -/
def unreadableEnv (rec : GlobalDNS) : Env :=
  { holding (sampleEnv AccessType.OwnerAccess) rec with
    byID := fun _ => some (Err.apiError "NotFound" "not found") }

/-- Every write in `ext`, the part of a log that follows `w`, comes right after
a read of the record `gDNS.Namespace`/`gDNS.Name` and submits the record that
this read returned with its targets replaced by `t`. -/
def WritesRereadRecord (env : Env) (gDNS : GlobalDNS) (t : List String) (w ext : World) :
    Prop :=
  ∀ (pre post : World) (obj : GlobalDNS) (result : Option Err),
    ext = pre ++ Event.update obj result :: post →
    ∃ (before : World) (latest : GlobalDNS),
      pre = before ++ [Event.get gDNS.Namespace gDNS.Name] ∧
      env.getNamespaced (numGets (w ++ before)) gDNS.Namespace gDNS.Name = .ok latest ∧
      obj = { latest with ProjectNames := t }

/-- A record `ns:dns` as the store holds it after other writers changed it:
another revision, a member, and the targets `["p1", "p9"]`. -/
def storedRecord : GlobalDNS :=
  { Namespace := "ns", Name := "dns", ResourceVersion := "42",
    Annotations := [("field.cattle.io/creatorId", "u1")],
    Members := [{ UserPrincipalName := "u2", AccessType := "member" }],
    ProjectNames := ["p1", "p9"], MultiClusterAppName := "" }

/-! ## Lists and maps -/

theorem foldl_setTrue_apply (xs : List String) (m : StringSet) (p : String) :
    (xs.foldl setTrue m) p = (m p || decide (p ∈ xs)) := by
  induction xs generalizing m with
  | nil => simp
  | cons x xs ih =>
    rw [List.foldl_cons, ih]
    by_cases h : p = x
    · simp [setTrue, h]
    · simp [setTrue, h]

theorem existing_apply (xs : List String) (p : String) :
    (xs.foldl setTrue emptySet) p = decide (p ∈ xs) := by
  rw [foldl_setTrue_apply]; simp [emptySet]

theorem foldl_keep_mem (ys xs init : List String) :
    xs.foldl (fun acc p => if p ∈ ys then acc else acc ++ [p]) init
      = init ++ xs.filter (fun p => !decide (p ∈ ys)) := by
  induction xs generalizing init with
  | nil => simp
  | cons x xs ih =>
    rw [List.foldl_cons, ih]
    by_cases h : x ∈ ys <;> simp [h]

/-! ## Logs -/

@[simp] theorem numGets_append (w v : World) : numGets (w ++ v) = numGets w + numGets v := by
  simp [numGets]

@[simp] theorem numUpdates_append (w v : World) :
    numUpdates (w ++ v) = numUpdates w + numUpdates v := by
  simp [numUpdates]

@[simp] theorem committed_append (w v : World) :
    committed (w ++ v) = committed w ++ committed v := by
  simp [committed]

@[simp] theorem responses_append (w v : World) :
    responses (w ++ v) = responses w ++ responses v := by
  simp [responses]

@[simp] theorem numGets_nil : numGets [] = 0 := rfl

@[simp] theorem numUpdates_nil : numUpdates [] = 0 := rfl

@[simp] theorem committed_nil : committed [] = [] := rfl

@[simp] theorem responses_nil : responses [] = [] := rfl

@[simp] theorem numGets_cons (e : Event) (w : World) :
    numGets (e :: w) = (match e with | .get _ _ => 1 | _ => 0) + numGets w := by
  cases e <;> simp [numGets, Nat.add_comm]

@[simp] theorem numUpdates_cons (e : Event) (w : World) :
    numUpdates (e :: w) = (match e with | .update _ _ => 1 | _ => 0) + numUpdates w := by
  cases e <;> simp [numUpdates, Nat.add_comm]

@[simp] theorem committed_cons (e : Event) (w : World) :
    committed (e :: w)
      = (match e with | .update obj none => [obj] | _ => []) ++ committed w := by
  cases e with
  | update obj r => cases r <;> simp [committed]
  | _ => simp [committed]

@[simp] theorem responses_cons (e : Event) (w : World) :
    responses (e :: w)
      = (match e with | .response c b => [(c, b)] | _ => []) ++ responses w := by
  cases e <;> simp [responses]

/-! ## One attempt of the retrying updater -/

theorem updateAttempt_cases (env : Env) (gDNS : GlobalDNS) (t : List String) (w : World) :
    (∃ e, updateAttempt env gDNS t w
        = ((false, some e), w ++ [Event.get gDNS.Namespace gDNS.Name])) ∨
    (∃ latest : GlobalDNS, updateAttempt env gDNS t w
        = ((true, none), w ++ [Event.get gDNS.Namespace gDNS.Name,
            Event.update { latest with ProjectNames := t } none])) ∨
    (∃ (latest : GlobalDNS) (e : Err), updateAttempt env gDNS t w
        = ((false, none), w ++ [Event.get gDNS.Namespace gDNS.Name,
            Event.update { latest with ProjectNames := t } (some e)])) ∨
    (∃ (latest : GlobalDNS) (e : Err), updateAttempt env gDNS t w
        = ((false, some e), w ++ [Event.get gDNS.Namespace gDNS.Name,
            Event.update { latest with ProjectNames := t } (some e)])) := by
  unfold updateAttempt
  cases hr : env.getNamespaced (numGets w) gDNS.Namespace gDNS.Name with
  | error e => exact Or.inl ⟨e, by simp⟩
  | ok latest =>
    cases hu : env.update (numUpdates (w ++ [Event.get gDNS.Namespace gDNS.Name]))
        { latest with ProjectNames := t } with
    | none =>
      simp at hu
      exact Or.inr (Or.inl ⟨latest, by simp [hu]⟩)
    | some e =>
      simp at hu
      by_cases hc : IsConflict e = true
      · exact Or.inr (Or.inr (Or.inl ⟨latest, e, by simp [hu, hc]⟩))
      · exact Or.inr (Or.inr (Or.inr ⟨latest, e, by simp [hu, hc]⟩))

theorem updateAttempt_conflict (env : Env) (gDNS : GlobalDNS) (t : List String) (w : World)
    (h : conflictAt env gDNS t (numGets w) (numUpdates w) = true) :
    ∃ (latest : GlobalDNS) (e : Err), updateAttempt env gDNS t w
      = ((false, none), w ++ [Event.get gDNS.Namespace gDNS.Name,
          Event.update { latest with ProjectNames := t } (some e)]) := by
  unfold conflictAt at h
  unfold updateAttempt
  cases hr : env.getNamespaced (numGets w) gDNS.Namespace gDNS.Name with
  | error e => simp [hr] at h
  | ok latest =>
    cases hu : env.update (numUpdates w) { latest with ProjectNames := t } with
    | none => simp [hr, hu] at h
    | some e =>
      simp only [hr, hu] at h
      exact ⟨latest, e, by simp [hu, h]⟩

theorem updateAttempt_success (env : Env) (gDNS : GlobalDNS) (t : List String) (w : World)
    (h : successAt env gDNS t (numGets w) (numUpdates w) = true) :
    ∃ latest : GlobalDNS, updateAttempt env gDNS t w
      = ((true, none), w ++ [Event.get gDNS.Namespace gDNS.Name,
          Event.update { latest with ProjectNames := t } none]) := by
  unfold successAt at h
  unfold updateAttempt
  cases hr : env.getNamespaced (numGets w) gDNS.Namespace gDNS.Name with
  | error e => simp [hr] at h
  | ok latest =>
    cases hu : env.update (numUpdates w) { latest with ProjectNames := t } with
    | none => exact ⟨latest, by simp [hu]⟩
    | some e => simp [hr, hu] at h

/-! ## The backoff loop -/

theorem backoff_trace (env : Env) (gDNS : GlobalDNS) (t : List String) (n : Nat)
    (last : Option Err) (w : World) :
    ∃ ext, (ExponentialBackoff n (updateAttempt env gDNS t) last w).2 = w ++ ext ∧
      responses ext = [] ∧ numGets ext ≤ n ∧ numUpdates ext ≤ n ∧
      ((ExponentialBackoff n (updateAttempt env gDNS t) last w).1 = none →
        ∃ (pre : World) (latest : GlobalDNS), ext = pre ++ [Event.get gDNS.Namespace gDNS.Name,
            Event.update { latest with ProjectNames := t } none] ∧ committed pre = []) ∧
      ((ExponentialBackoff n (updateAttempt env gDNS t) last w).1 ≠ none →
        committed ext = []) := by
  induction n generalizing last w with
  | zero =>
    refine ⟨[], ?_⟩
    cases last <;> simp [ExponentialBackoff]
  | succ n ih =>
    rcases updateAttempt_cases env gDNS t w with ⟨e, h⟩ | ⟨latest, h⟩ | ⟨latest, e, h⟩ |
      ⟨latest, e, h⟩
    · exact ⟨[Event.get gDNS.Namespace gDNS.Name], by simp [ExponentialBackoff, h]⟩
    · refine ⟨[Event.get gDNS.Namespace gDNS.Name,
        Event.update { latest with ProjectNames := t } none], ?_⟩
      have hb : ExponentialBackoff (n + 1) (updateAttempt env gDNS t) last w
          = (none, w ++ [Event.get gDNS.Namespace gDNS.Name,
              Event.update { latest with ProjectNames := t } none]) := by
        simp [ExponentialBackoff, h]
      rw [hb]
      exact ⟨rfl, by simp, by simp, by simp, fun _ => ⟨[], latest, by simp⟩, by simp⟩
    · obtain ⟨ext, h1, h2, h3, h4, h5, h6⟩ := ih none
        (w ++ [Event.get gDNS.Namespace gDNS.Name,
          Event.update { latest with ProjectNames := t } (some e)])
      refine ⟨[Event.get gDNS.Namespace gDNS.Name,
          Event.update { latest with ProjectNames := t } (some e)] ++ ext, ?_⟩
      have hb : ExponentialBackoff (n + 1) (updateAttempt env gDNS t) last w
          = ExponentialBackoff n (updateAttempt env gDNS t) none
              (w ++ [Event.get gDNS.Namespace gDNS.Name,
                Event.update { latest with ProjectNames := t } (some e)]) := by
        simp [ExponentialBackoff, h]
      rw [hb]
      refine ⟨by rw [h1]; simp, by simp [h2], by simp; omega, by simp; omega, ?_, ?_⟩
      · intro hn
        obtain ⟨pre, l2, hp, hc⟩ := h5 hn
        exact ⟨[Event.get gDNS.Namespace gDNS.Name,
          Event.update { latest with ProjectNames := t } (some e)] ++ pre, l2,
          by rw [hp]; simp, by simp [hc]⟩
      · intro hn
        simp [h6 hn]
    · exact ⟨[Event.get gDNS.Namespace gDNS.Name,
        Event.update { latest with ProjectNames := t } (some e)],
        by simp [ExponentialBackoff, h]⟩

theorem backoff_skip (env : Env) (gDNS : GlobalDNS) (t : List String) (k m : Nat)
    (w : World)
    (h : ∀ i, i < k → conflictAt env gDNS t (numGets w + i) (numUpdates w + i) = true) :
    ∃ ext, ExponentialBackoff (k + m) (updateAttempt env gDNS t) none w
        = ExponentialBackoff m (updateAttempt env gDNS t) none (w ++ ext) ∧
      numGets ext = k ∧ numUpdates ext = k ∧ committed ext = [] ∧ responses ext = [] := by
  induction k generalizing w with
  | zero => exact ⟨[], by simp⟩
  | succ k ih =>
    obtain ⟨latest, e, ha⟩ := updateAttempt_conflict env gDNS t w (by simpa using h 0 (by omega))
    have hstep : ExponentialBackoff (k + 1 + m) (updateAttempt env gDNS t) none w
        = ExponentialBackoff (k + m) (updateAttempt env gDNS t) none
            (w ++ [Event.get gDNS.Namespace gDNS.Name,
              Event.update { latest with ProjectNames := t } (some e)]) := by
      have hk : k + 1 + m = (k + m) + 1 := by omega
      rw [hk]
      simp [ExponentialBackoff, ha]
    obtain ⟨ext, h1, h2, h3, h4, h5⟩ := ih
      (w ++ [Event.get gDNS.Namespace gDNS.Name,
        Event.update { latest with ProjectNames := t } (some e)])
      (by
        intro i hi
        have := h (i + 1) (by omega)
        simpa [Nat.add_assoc, Nat.add_comm 1 i] using this)
    refine ⟨[Event.get gDNS.Namespace gDNS.Name,
        Event.update { latest with ProjectNames := t } (some e)] ++ ext, ?_, ?_, ?_, ?_, ?_⟩
    · rw [hstep, h1]; simp
    · simp [h2]; omega
    · simp [h3]; omega
    · simp [h4]
    · simp [h5]

theorem updateAttempt_readFails (env : Env) (gDNS : GlobalDNS) (t : List String)
    (w : World) (e : Err) (h : readFailsAt env gDNS (numGets w) e = true) :
    updateAttempt env gDNS t w
      = ((false, some e), w ++ [Event.get gDNS.Namespace gDNS.Name]) := by
  unfold readFailsAt at h
  unfold updateAttempt
  cases hr : env.getNamespaced (numGets w) gDNS.Namespace gDNS.Name with
  | error err =>
    simp only [hr, decide_eq_true_eq] at h
    simp [h]
  | ok latest => simp [hr] at h

theorem updateAttempt_writeFails (env : Env) (gDNS : GlobalDNS) (t : List String)
    (w : World) (e : Err)
    (h : writeFailsAt env gDNS t (numGets w) (numUpdates w) e = true) :
    ∃ latest : GlobalDNS, updateAttempt env gDNS t w
      = ((false, some e), w ++ [Event.get gDNS.Namespace gDNS.Name,
          Event.update { latest with ProjectNames := t } (some e)]) := by
  unfold writeFailsAt at h
  unfold updateAttempt
  cases hr : env.getNamespaced (numGets w) gDNS.Namespace gDNS.Name with
  | error err => simp [hr] at h
  | ok latest =>
    cases hu : env.update (numUpdates w) { latest with ProjectNames := t } with
    | none => simp [hr, hu] at h
    | some err =>
      simp only [hr, hu, Bool.and_eq_true, Bool.not_eq_true', decide_eq_true_eq] at h
      obtain ⟨hc, he⟩ := h
      subst he
      exact ⟨latest, by simp [hu, hc]⟩

theorem backoff_then_success (env : Env) (gDNS : GlobalDNS) (t : List String) (k m : Nat)
    (w : World)
    (h : ∀ i, i < k → conflictAt env gDNS t (numGets w + i) (numUpdates w + i) = true)
    (hs : successAt env gDNS t (numGets w + k) (numUpdates w + k) = true) :
    ∃ (ext : World) (latest : GlobalDNS),
      ExponentialBackoff (k + (m + 1)) (updateAttempt env gDNS t) none w
        = (none, w ++ ext ++ [Event.get gDNS.Namespace gDNS.Name,
            Event.update { latest with ProjectNames := t } none]) ∧
      numGets ext = k ∧ numUpdates ext = k ∧ committed ext = [] ∧ responses ext = [] := by
  obtain ⟨ext, h1, h2, h3, h4, h5⟩ := backoff_skip env gDNS t k (m + 1) w h
  obtain ⟨latest, ha⟩ := updateAttempt_success env gDNS t (w ++ ext)
    (by simpa [h2, h3] using hs)
  refine ⟨ext, latest, ?_, h2, h3, h4, h5⟩
  rw [h1]
  simp [ExponentialBackoff, ha]

theorem backoff_exhausted (env : Env) (gDNS : GlobalDNS) (t : List String) (k : Nat)
    (w : World)
    (h : ∀ i, i < k → conflictAt env gDNS t (numGets w + i) (numUpdates w + i) = true) :
    ∃ ext : World,
      ExponentialBackoff k (updateAttempt env gDNS t) none w
        = (some Err.waitTimeout, w ++ ext) ∧
      numGets ext = k ∧ numUpdates ext = k ∧ committed ext = [] ∧ responses ext = [] := by
  obtain ⟨ext, h1, h2, h3, h4, h5⟩ := backoff_skip env gDNS t k 0 w h
  refine ⟨ext, ?_, h2, h3, h4, h5⟩
  rw [Nat.add_zero] at h1
  rw [h1]
  simp [ExponentialBackoff]

theorem backoff_then_readFails (env : Env) (gDNS : GlobalDNS) (t : List String) (k m : Nat)
    (w : World) (e : Err)
    (h : ∀ i, i < k → conflictAt env gDNS t (numGets w + i) (numUpdates w + i) = true)
    (hf : readFailsAt env gDNS (numGets w + k) e = true) :
    ∃ ext : World,
      ExponentialBackoff (k + (m + 1)) (updateAttempt env gDNS t) none w
        = (some e, w ++ ext ++ [Event.get gDNS.Namespace gDNS.Name]) ∧
      numGets ext = k ∧ numUpdates ext = k ∧ committed ext = [] ∧ responses ext = [] := by
  obtain ⟨ext, h1, h2, h3, h4, h5⟩ := backoff_skip env gDNS t k (m + 1) w h
  have ha := updateAttempt_readFails env gDNS t (w ++ ext) e (by simpa [h2] using hf)
  refine ⟨ext, ?_, h2, h3, h4, h5⟩
  rw [h1]
  simp [ExponentialBackoff, ha]

theorem backoff_then_writeFails (env : Env) (gDNS : GlobalDNS) (t : List String)
    (k m : Nat) (w : World) (e : Err)
    (h : ∀ i, i < k → conflictAt env gDNS t (numGets w + i) (numUpdates w + i) = true)
    (hf : writeFailsAt env gDNS t (numGets w + k) (numUpdates w + k) e = true) :
    ∃ (ext : World) (latest : GlobalDNS),
      ExponentialBackoff (k + (m + 1)) (updateAttempt env gDNS t) none w
        = (some e, w ++ ext ++ [Event.get gDNS.Namespace gDNS.Name,
            Event.update { latest with ProjectNames := t } (some e)]) ∧
      numGets ext = k ∧ numUpdates ext = k ∧ committed ext = [] ∧ responses ext = [] := by
  obtain ⟨ext, h1, h2, h3, h4, h5⟩ := backoff_skip env gDNS t k (m + 1) w h
  obtain ⟨latest, ha⟩ := updateAttempt_writeFails env gDNS t (w ++ ext) e
    (by simpa [h2, h3] using hf)
  refine ⟨ext, latest, ?_, h2, h3, h4, h5⟩
  rw [h1]
  simp [ExponentialBackoff, ha]

/-! ## The retrying updater -/

theorem updateGDNS_trace (env : Env) (gDNS : GlobalDNS) (t : List String) (message : String)
    (w : World) :
    ∃ ext, (updateGDNS env gDNS t message w).2 = w ++ ext ∧
      numGets ext ≤ 7 ∧ numUpdates ext ≤ 7 ∧
      ((updateGDNS env gDNS t message w).1 = none →
        ∃ (pre : World) (latest : GlobalDNS),
          ext = pre ++ [Event.get gDNS.Namespace gDNS.Name,
            Event.update { latest with ProjectNames := t } none,
            Event.response StatusOK [("message", message)]] ∧
          committed pre = [] ∧ responses pre = []) ∧
      ((updateGDNS env gDNS t message w).1 ≠ none →
        committed ext = [] ∧ responses ext = []) := by
  obtain ⟨ext, h1, h2, h3, h4, h5, h6⟩ := backoff_trace env gDNS t backoffSteps none w
  unfold updateGDNS
  cases hb : ExponentialBackoff backoffSteps (updateAttempt env gDNS t) none w with
  | mk r w1 =>
    rw [hb] at h1 h5 h6
    simp only at h1
    cases r with
    | some err =>
      refine ⟨ext, h1, h3, h4, by simp, fun _ => ⟨h6 (by simp), h2⟩⟩
    | none =>
      obtain ⟨pre, latest, hp, hc⟩ := h5 rfl
      refine ⟨ext ++ [Event.response StatusOK [("message", message)]], by simp [h1],
        by simpa using h3, by simpa using h4, fun _ => ⟨pre, latest, by simp [hp], hc, ?_⟩,
        by simp⟩
      have hr : responses ext = [] := h2
      rw [hp] at hr
      simpa using hr

/-! ## Dispatch -/

theorem ActionHandler_remove (env : Env) (request : APIContext) (w : World) (gDNS : GlobalDNS)
    (input : List String) (h : OwnerDispatch env request w gDNS input) :
    ∃ ns name, SplitN request.ID ':' 2 = [ns, name] ∧
      ActionHandler env removeProjectsAction request w
        = updateGDNS env gDNS (gDNS.ProjectNames.filter (fun p => !decide (p ∈ input)))
            "removedProjects" (w ++ [Event.byID request.ID, Event.get ns name]) := by
  obtain ⟨h1, ns, name, creatorID, body, h2, h3, h4, h5, h6, h7⟩ := h
  refine ⟨ns, name, h2, ?_⟩
  have hne : removeProjectsAction ≠ addProjectsAction := by decide
  have hset : (List.foldl setTrue emptySet input) = fun p => decide (p ∈ input) := by
    funext p; exact existing_apply input p
  simp [ActionHandler, h1, h2, h3, h4, h5, h6, h7, hne, removeProjects, foldl_keep_mem, hset]

theorem ActionHandler_add (env : Env) (request : APIContext) (w : World) (gDNS : GlobalDNS)
    (input : List String) (h : OwnerDispatch env request w gDNS input)
    (hmca : gDNS.MultiClusterAppName = "")
    (hacc : env.checkCallerAccessToTargets request input = none) :
    ∃ ns name, SplitN request.ID ':' 2 = [ns, name] ∧
      ActionHandler env addProjectsAction request w
        = updateGDNS env gDNS (input.filter (fun p => !decide (p ∈ gDNS.ProjectNames)))
            "addedProjects" (w ++ [Event.byID request.ID, Event.get ns name]) := by
  obtain ⟨h1, ns, name, creatorID, body, h2, h3, h4, h5, h6, h7⟩ := h
  refine ⟨ns, name, h2, ?_⟩
  have hset : (List.foldl setTrue emptySet gDNS.ProjectNames)
      = fun p => decide (p ∈ gDNS.ProjectNames) := by
    funext p; exact existing_apply gDNS.ProjectNames p
  simp [ActionHandler, h1, h2, h3, h4, h5, h6, h7, addProjects, hmca, hacc, foldl_keep_mem, hset]

theorem updateGDNS_persists (env : Env) (gDNS : GlobalDNS) (t : List String)
    (message : String) (w : World) (hok : (updateGDNS env gDNS t message w).1 = none) :
    ∃ latest : GlobalDNS,
      committed (updateGDNS env gDNS t message w).2
        = committed w ++ [{ latest with ProjectNames := t }] ∧
      responses (updateGDNS env gDNS t message w).2
        = responses w ++ [(StatusOK, [("message", message)])] := by
  obtain ⟨ext, h1, -, -, h4, -⟩ := updateGDNS_trace env gDNS t message w
  obtain ⟨pre, latest, hp, hc, hr⟩ := h4 hok
  exact ⟨latest, by rw [h1, hp]; simp [hc], by rw [h1, hp]; simp [hr]⟩

theorem updateGDNS_fails (env : Env) (gDNS : GlobalDNS) (t : List String)
    (message : String) (w : World) (hok : (updateGDNS env gDNS t message w).1 ≠ none) :
    committed (updateGDNS env gDNS t message w).2 = committed w ∧
      responses (updateGDNS env gDNS t message w).2 = responses w := by
  obtain ⟨ext, h1, -, -, -, h5⟩ := updateGDNS_trace env gDNS t message w
  obtain ⟨hc, hr⟩ := h5 hok
  exact ⟨by rw [h1]; simp [hc], by rw [h1]; simp [hr]⟩

theorem remove_persists (env : Env) (request : APIContext) (w : World) (gDNS : GlobalDNS)
    (input : List String) (h : OwnerDispatch env request w gDNS input)
    (hok : (ActionHandler env removeProjectsAction request w).1 = none) :
    ∃ latest : GlobalDNS,
      committed (ActionHandler env removeProjectsAction request w).2
        = committed w ++ [{ latest with
            ProjectNames := gDNS.ProjectNames.filter (fun p => !decide (p ∈ input)) }] ∧
      responses (ActionHandler env removeProjectsAction request w).2
        = responses w ++ [(StatusOK, [("message", "removedProjects")])] := by
  obtain ⟨ns, name, -, hrun⟩ := ActionHandler_remove env request w gDNS input h
  rw [hrun] at hok ⊢
  obtain ⟨latest, hc, hr⟩ := updateGDNS_persists env gDNS _ _ _ hok
  exact ⟨latest, by simpa using hc, by simpa using hr⟩

theorem add_persists (env : Env) (request : APIContext) (w : World) (gDNS : GlobalDNS)
    (input : List String) (h : OwnerDispatch env request w gDNS input)
    (hmca : gDNS.MultiClusterAppName = "")
    (hacc : env.checkCallerAccessToTargets request input = none)
    (hok : (ActionHandler env addProjectsAction request w).1 = none) :
    ∃ latest : GlobalDNS,
      committed (ActionHandler env addProjectsAction request w).2
        = committed w ++ [{ latest with
            ProjectNames := input.filter (fun p => !decide (p ∈ gDNS.ProjectNames)) }] ∧
      responses (ActionHandler env addProjectsAction request w).2
        = responses w ++ [(StatusOK, [("message", "addedProjects")])] := by
  obtain ⟨ns, name, -, hrun⟩ := ActionHandler_add env request w gDNS input h hmca hacc
  rw [hrun] at hok ⊢
  obtain ⟨latest, hc, hr⟩ := updateGDNS_persists env gDNS _ _ _ hok
  exact ⟨latest, by simpa using hc, by simpa using hr⟩

theorem ActionHandler_add_bound (env : Env) (request : APIContext) (w : World)
    (gDNS : GlobalDNS) (input : List String) (h : OwnerDispatch env request w gDNS input)
    (hmca : gDNS.MultiClusterAppName ≠ "") :
    ∃ ns name, SplitN request.ID ':' 2 = [ns, name] ∧
      ActionHandler env addProjectsAction request w
        = (some (Err.apiError InvalidOption
            ("cannot add projects to globaldns as targets if multiclusterappID is set "
              ++ gDNS.MultiClusterAppName)),
          w ++ [Event.byID request.ID, Event.get ns name]) := by
  obtain ⟨h1, ns, name, creatorID, body, h2, h3, h4, h5, h6, h7⟩ := h
  refine ⟨ns, name, h2, ?_⟩
  simp [ActionHandler, h1, h2, h3, h4, h5, h6, addProjects, hmca]

theorem ActionHandler_add_denied (env : Env) (request : APIContext) (w : World)
    (gDNS : GlobalDNS) (input : List String) (h : OwnerDispatch env request w gDNS input)
    (hmca : gDNS.MultiClusterAppName = "") (e : Err)
    (hacc : env.checkCallerAccessToTargets request input = some e) :
    ∃ ns name, SplitN request.ID ':' 2 = [ns, name] ∧
      ActionHandler env addProjectsAction request w
        = (some e, w ++ [Event.byID request.ID, Event.get ns name]) := by
  obtain ⟨h1, ns, name, creatorID, body, h2, h3, h4, h5, h6, h7⟩ := h
  refine ⟨ns, name, h2, ?_⟩
  simp [ActionHandler, h1, h2, h3, h4, h5, h6, h7, addProjects, hmca, hacc]

theorem ActionHandler_bad_action (env : Env) (actionName : String) (request : APIContext)
    (w : World) (gDNS : GlobalDNS) (input : List String)
    (h : OwnerDispatch env request w gDNS input)
    (ha : actionName ≠ addProjectsAction) (hr : actionName ≠ removeProjectsAction) :
    ∃ ns name, SplitN request.ID ':' 2 = [ns, name] ∧
      ActionHandler env actionName request w
        = (some (Err.errorf ("bad action for global dns " ++ actionName)),
          w ++ [Event.byID request.ID, Event.get ns name]) := by
  obtain ⟨h1, ns, name, creatorID, body, h2, h3, h4, h5, h6, h7⟩ := h
  refine ⟨ns, name, h2, ?_⟩
  simp [ActionHandler, h1, h2, h3, h4, h5, h6, ha, hr]

theorem OwnerDispatch_decodedInput (env : Env) (request : APIContext) (w : World)
    (gDNS : GlobalDNS) (input : List String) (h : OwnerDispatch env request w gDNS input) :
    decodedInput request = input := by
  obtain ⟨-, ns, name, creatorID, body, -, -, -, -, h6, h7⟩ := h
  simp [decodedInput, h6, h7]

theorem ActionHandler_pre_cases (env : Env) (actionName : String) (request : APIContext)
    (w : World) :
    (∃ gDNS input, OwnerDispatch env request w gDNS input) ∨
    (∃ e ext, ActionHandler env actionName request w = (some e, w ++ ext) ∧
      numUpdates ext = 0 ∧ committed ext = [] ∧ responses ext = []) := by
  cases h1 : env.byID request.ID with
  | some e =>
    exact Or.inr ⟨e, [Event.byID request.ID], by simp [ActionHandler, h1]⟩
  | none =>
    cases h2 : SplitN request.ID ':' 2 with
    | nil => exact Or.inr ⟨Err.errorf "incorrect global DNS ID", [Event.byID request.ID], by simp [ActionHandler, h1, h2]⟩
    | cons ns l1 =>
      cases l1 with
      | nil => exact Or.inr ⟨Err.errorf "incorrect global DNS ID", [Event.byID request.ID], by simp [ActionHandler, h1, h2]⟩
      | cons name l2 =>
        cases l2 with
        | cons x l3 =>
          exact Or.inr ⟨Err.errorf "incorrect global DNS ID", [Event.byID request.ID],
            by simp [ActionHandler, h1, h2]⟩
        | nil =>
          cases h3 : env.getNamespaced (numGets w) ns name with
          | error e =>
            exact Or.inr ⟨e, [Event.byID request.ID, Event.get ns name],
              by simp [ActionHandler, h1, h2, h3]⟩
          | ok gDNS =>
            cases h4 : gDNS.Annotations.lookup env.creatorIDAnn with
            | none =>
              exact Or.inr ⟨Err.errorf ("GlobalDNS " ++ gDNS.Name ++ " has no creatorId annotation"),
                [Event.byID request.ID, Event.get ns name],
                by simp [ActionHandler, h1, h2, h3, h4]⟩
            | some creatorID =>
              cases h5 : env.getAccessTypeOfCaller request.ImpersonateUser creatorID
                  gDNS.Name gDNS.Members with
              | error e =>
                exact Or.inr ⟨e, [Event.byID request.ID, Event.get ns name],
                  by simp [ActionHandler, h1, h2, h3, h4, h5]⟩
              | ok accessType =>
                by_cases h6 : accessType = AccessType.OwnerAccess
                · cases h7 : request.Body with
                  | error e =>
                    exact Or.inr ⟨e, [Event.byID request.ID, Event.get ns name],
                      by simp [ActionHandler, h1, h2, h3, h4, h5, h6, h7]⟩
                  | ok body =>
                    exact Or.inl ⟨gDNS, _, h1, ns, name, creatorID, body, h2, h3, h4,
                      h6 ▸ h5, h7, rfl⟩
                · exact Or.inr ⟨Err.errorf "only owners can modify global DNS target projects",
                    [Event.byID request.ID, Event.get ns name],
                    by simp [ActionHandler, h1, h2, h3, h4, h5, h6]⟩

/-! ## Duplicate-free targets -/

theorem dispatch_commit_nodup (env : Env) (actionName : String) (request : APIContext)
    (w : World) (gDNS : GlobalDNS) (input : List String)
    (h : OwnerDispatch env request w gDNS input)
    (hrec : gDNS.ProjectNames.Nodup) (hin : actionName = addProjectsAction → input.Nodup) :
    ((ActionHandler env actionName request w).1 = none →
      ∃ obj : GlobalDNS,
        committed (ActionHandler env actionName request w).2 = committed w ++ [obj] ∧
        obj.ProjectNames.Nodup) ∧
    ((ActionHandler env actionName request w).1 ≠ none →
      committed (ActionHandler env actionName request w).2 = committed w) := by
  by_cases ha : actionName = addProjectsAction
  · subst ha
    by_cases hmca : gDNS.MultiClusterAppName = ""
    · cases hacc : env.checkCallerAccessToTargets request input with
      | some e =>
        obtain ⟨ns, name, -, hrun⟩ :=
          ActionHandler_add_denied env request w gDNS input h hmca e hacc
        rw [hrun]; simp
      | none =>
        refine ⟨fun hok => ?_, fun hno => ?_⟩
        · obtain ⟨latest, hc, -⟩ := add_persists env request w gDNS input h hmca hacc hok
          exact ⟨_, hc, (hin rfl).filter _⟩
        · obtain ⟨ns, name, -, hrun⟩ := ActionHandler_add env request w gDNS input h hmca hacc
          rw [hrun] at hno ⊢
          simpa using (updateGDNS_fails env gDNS _ _ _ hno).1
    · obtain ⟨ns, name, -, hrun⟩ := ActionHandler_add_bound env request w gDNS input h hmca
      rw [hrun]; simp
  · by_cases hr : actionName = removeProjectsAction
    · subst hr
      refine ⟨fun hok => ?_, fun hno => ?_⟩
      · obtain ⟨latest, hc, -⟩ := remove_persists env request w gDNS input h hok
        exact ⟨_, hc, hrec.filter _⟩
      · obtain ⟨ns, name, -, hrun⟩ := ActionHandler_remove env request w gDNS input h
        rw [hrun] at hno ⊢
        simpa using (updateGDNS_fails env gDNS _ _ _ hno).1
    · obtain ⟨ns, name, -, hrun⟩ :=
        ActionHandler_bad_action env actionName request w gDNS input h ha hr
      rw [hrun]; simp

theorem applyAction_nodup (base : Env) (rec : GlobalDNS) (a : String × APIContext)
    (hrec : rec.ProjectNames.Nodup)
    (hin : a.1 = addProjectsAction → (decodedInput a.2).Nodup) :
    (applyAction base rec a).ProjectNames.Nodup := by
  unfold applyAction
  rcases ActionHandler_pre_cases (holding base rec) a.1 a.2 [] with
    ⟨gDNS, input, hd⟩ | ⟨e, ext, hrun, -, hc, -⟩
  · have hg : gDNS = rec := by
      obtain ⟨-, ns, name, creatorID, body, -, h3, -⟩ := hd
      simpa [holding] using h3.symm
    have hi : decodedInput a.2 = input := OwnerDispatch_decodedInput _ _ _ _ _ hd
    subst hg
    rw [hi] at hin
    obtain ⟨h1, h2⟩ := dispatch_commit_nodup (holding base gDNS) a.1 a.2 [] gDNS input hd hrec hin
    cases hres : (ActionHandler (holding base gDNS) a.1 a.2 []).1 with
    | none =>
      obtain ⟨obj, hc, hn⟩ := h1 hres
      rw [hc]; simpa using hn
    | some e =>
      rw [h2 (by simp [hres])]; simpa using hrec
  · rw [hrun]; simpa [hc] using hrec

theorem applyActions_nodup (base : Env) (actions : List (String × APIContext))
    (rec : GlobalDNS) (hrec : rec.ProjectNames.Nodup)
    (hin : ∀ a ∈ actions, a.1 = addProjectsAction → (decodedInput a.2).Nodup) :
    (applyActions base rec actions).ProjectNames.Nodup := by
  induction actions generalizing rec with
  | nil => simpa [applyActions] using hrec
  | cons a rest ih =>
    have hstep := applyAction_nodup base rec a hrec (hin a (by simp))
    have := ih (applyAction base rec a) hstep (fun b hb => hin b (by simp [hb]))
    simpa [applyActions] using this

theorem sample_dispatch (rec : GlobalDNS) (input : List String) (w : World)
    (hann : rec.Annotations.lookup "field.cattle.io/creatorId" = some "u1") :
    OwnerDispatch (holding (sampleEnv AccessType.OwnerAccess) rec) (sampleRequest input) w
      rec input :=
  ⟨rfl, "ns", "dns", "u1", [(UpdateGlobalDNSTargetsInputFieldProjectIDs, input)],
    by show SplitN "ns:dns" ':' 2 = ["ns", "dns"]; decide, rfl, hann, rfl, rfl,
    by simp [UpdateGlobalDNSTargetsInputFieldProjectIDs]⟩

/-! ## The add and remove paths -/

/-- C1 (defect of the code): an owner's successful `addProjects` on a record
with targets `["p1"]` and input `["p2"]` persists `["p2"]`, and on targets
`["p1", "p2"]` with input `["p2", "p3"]` it persists `["p3"]`: the handler hands
only the ids to add to the updater, which replaces the whole target list by
them, so the existing targets are lost instead of being kept in front. -/
theorem addProjects_persists_only_new_ids :
    (ActionHandler (holding (sampleEnv AccessType.OwnerAccess) (sampleRecord ["p1"] ""))
        addProjectsAction (sampleRequest ["p2"]) []).1 = none ∧
    (committed (ActionHandler (holding (sampleEnv AccessType.OwnerAccess)
        (sampleRecord ["p1"] "")) addProjectsAction (sampleRequest ["p2"]) []).2).map
      GlobalDNS.ProjectNames = [["p2"]] ∧
    (ActionHandler (holding (sampleEnv AccessType.OwnerAccess) (sampleRecord ["p1", "p2"] ""))
        addProjectsAction (sampleRequest ["p2", "p3"]) []).1 = none ∧
    (committed (ActionHandler (holding (sampleEnv AccessType.OwnerAccess)
        (sampleRecord ["p1", "p2"] "")) addProjectsAction (sampleRequest ["p2", "p3"]) []).2).map
      GlobalDNS.ProjectNames = [["p3"]] := by
  decide

/-- C2 (as stated, refuted): a successful `addProjects` with the input
`["p3", "p3"]` persists a target sequence in which `p3` occurs twice, and a
successful `removeProjects` on a record whose targets are `["p1", "p1"]`
persists `["p1", "p1"]`. -/
theorem persisted_targets_may_repeat :
    (ActionHandler (holding (sampleEnv AccessType.OwnerAccess) (sampleRecord ["p1"] ""))
        addProjectsAction (sampleRequest ["p3", "p3"]) []).1 = none ∧
    (committed (ActionHandler (holding (sampleEnv AccessType.OwnerAccess)
        (sampleRecord ["p1"] "")) addProjectsAction (sampleRequest ["p3", "p3"]) []).2).map
      GlobalDNS.ProjectNames = [["p3", "p3"]] ∧
    (ActionHandler (holding (sampleEnv AccessType.OwnerAccess) (sampleRecord ["p1", "p1"] ""))
        removeProjectsAction (sampleRequest []) []).1 = none ∧
    (committed (ActionHandler (holding (sampleEnv AccessType.OwnerAccess)
        (sampleRecord ["p1", "p1"] "")) removeProjectsAction (sampleRequest []) []).2).map
      GlobalDNS.ProjectNames = [["p1", "p1"]] ∧
    ¬ (["p3", "p3"] : List String).Nodup ∧ ¬ (["p1", "p1"] : List String).Nodup := by
  decide

/-- C2 (amended): when the record the handler reads has a duplicate-free target
sequence and, for `addProjects`, the input repeats no id, the sequence a
successful action persists is duplicate-free; hence a store that holds a
duplicate-free record still does after any sequence of actions whose
`addProjects` inputs repeat no id. -/
theorem persisted_targets_nodup (env : Env) (actionName : String) (request : APIContext)
    (w : World) (gDNS : GlobalDNS) (input : List String)
    (base : Env) (rec : GlobalDNS) (actions : List (String × APIContext))
    (h : OwnerDispatch env request w gDNS input)
    (hrec : gDNS.ProjectNames.Nodup)
    (hin : actionName = addProjectsAction → input.Nodup)
    (hok : (ActionHandler env actionName request w).1 = none)
    (hstore : rec.ProjectNames.Nodup)
    (hins : ∀ a ∈ actions, a.1 = addProjectsAction → (decodedInput a.2).Nodup) :
    (∃ obj : GlobalDNS,
      committed (ActionHandler env actionName request w).2 = committed w ++ [obj] ∧
      obj.ProjectNames.Nodup) ∧
    (applyActions base rec actions).ProjectNames.Nodup :=
  ⟨(dispatch_commit_nodup env actionName request w gDNS input h hrec hin).1 hok,
    applyActions_nodup base actions rec hstore hins⟩

/-- C2 witness: adding `["p2", "p3"]` to `["p1", "p2"]`, and the sequence add
`["p2", "p3"]`, remove `["p3"]` on the same store. -/
theorem persisted_targets_nodup_witness :
    (∃ obj : GlobalDNS,
      committed (ActionHandler (holding (sampleEnv AccessType.OwnerAccess)
          (sampleRecord ["p1", "p2"] "")) addProjectsAction (sampleRequest ["p2", "p3"]) []).2
        = committed [] ++ [obj] ∧
      obj.ProjectNames.Nodup) ∧
    (applyActions (sampleEnv AccessType.OwnerAccess) (sampleRecord ["p1", "p2"] "")
      [(addProjectsAction, sampleRequest ["p2", "p3"]),
        (removeProjectsAction, sampleRequest ["p3"])]).ProjectNames.Nodup :=
  persisted_targets_nodup (holding (sampleEnv AccessType.OwnerAccess)
      (sampleRecord ["p1", "p2"] "")) addProjectsAction (sampleRequest ["p2", "p3"]) []
    (sampleRecord ["p1", "p2"] "") ["p2", "p3"]
    (sampleEnv AccessType.OwnerAccess) (sampleRecord ["p1", "p2"] "")
    [(addProjectsAction, sampleRequest ["p2", "p3"]),
      (removeProjectsAction, sampleRequest ["p3"])]
    (sample_dispatch _ _ _ rfl) (by decide) (fun _ => by decide) (by decide) (by decide)
    (by decide)

/-- C3: for an owner's `removeProjects` that returns no error, the one object
committed carries exactly the targets of the record read by the handler that
are not in the input, in their original order; that sequence is a subsequence
of the existing one and contains no id of the input. -/
theorem removeProjects_persists_filter (env : Env) (request : APIContext) (w : World)
    (gDNS : GlobalDNS) (input : List String)
    (h : OwnerDispatch env request w gDNS input)
    (hok : (ActionHandler env removeProjectsAction request w).1 = none) :
    ∃ obj : GlobalDNS,
      committed (ActionHandler env removeProjectsAction request w).2 = committed w ++ [obj] ∧
      obj.ProjectNames = gDNS.ProjectNames.filter (fun p => decide (p ∉ input)) ∧
      obj.ProjectNames.Sublist gDNS.ProjectNames ∧
      ∀ p ∈ input, p ∉ obj.ProjectNames := by
  obtain ⟨latest, hc, -⟩ := remove_persists env request w gDNS input h hok
  refine ⟨_, hc, by simp, by simp, ?_⟩
  intro p hp hmem
  simp at hmem
  exact hmem.2 hp

/-- C3 witness: targets `["p1", "p2", "p3"]` with input `["p2"]` persist
`["p1", "p3"]`. -/
theorem removeProjects_persists_filter_witness :
    ∃ obj : GlobalDNS,
      committed (ActionHandler (holding (sampleEnv AccessType.OwnerAccess)
          (sampleRecord ["p1", "p2", "p3"] "")) removeProjectsAction (sampleRequest ["p2"])
          []).2 = committed [] ++ [obj] ∧
      obj.ProjectNames = ["p1", "p3"] ∧
      obj.ProjectNames.Sublist ["p1", "p2", "p3"] ∧
      ∀ p ∈ ["p2"], p ∉ obj.ProjectNames :=
  removeProjects_persists_filter (holding (sampleEnv AccessType.OwnerAccess)
      (sampleRecord ["p1", "p2", "p3"] "")) (sampleRequest ["p2"]) []
    (sampleRecord ["p1", "p2", "p3"] "") ["p2"] (sample_dispatch _ _ _ rfl) (by decide)

/-! ## Rejections before any write -/

/-- C4: when the access type resolved for the caller is not owner, the handler
(for `addProjects`, `removeProjects` and any other action name) returns the
error "only owners can modify global DNS target projects" right after reading
the record: it issues no store write, commits nothing and writes no response. -/
theorem non_owner_rejected (env : Env) (actionName : String) (request : APIContext)
    (w : World) (ns name creatorID : String) (gDNS : GlobalDNS) (accessType : AccessType)
    (h1 : env.byID request.ID = none)
    (h2 : SplitN request.ID ':' 2 = [ns, name])
    (h3 : env.getNamespaced (numGets w) ns name = .ok gDNS)
    (h4 : gDNS.Annotations.lookup env.creatorIDAnn = some creatorID)
    (h5 : env.getAccessTypeOfCaller request.ImpersonateUser creatorID gDNS.Name gDNS.Members
      = .ok accessType)
    (h6 : accessType ≠ AccessType.OwnerAccess) :
    ActionHandler env actionName request w
      = (some (Err.errorf "only owners can modify global DNS target projects"),
        w ++ [Event.byID request.ID, Event.get ns name]) ∧
    numUpdates (ActionHandler env actionName request w).2 = numUpdates w ∧
    committed (ActionHandler env actionName request w).2 = committed w ∧
    responses (ActionHandler env actionName request w).2 = responses w := by
  have hrun : ActionHandler env actionName request w
      = (some (Err.errorf "only owners can modify global DNS target projects"),
        w ++ [Event.byID request.ID, Event.get ns name]) := by
    simp [ActionHandler, h1, h2, h3, h4, h5, h6]
  rw [hrun]
  simp

/-- C4 witness: a read-only caller asking to remove `["p1"]`. -/
theorem non_owner_rejected_witness :
    ActionHandler (holding (sampleEnv AccessType.ReadonlyAccess) (sampleRecord ["p1"] ""))
        removeProjectsAction (sampleRequest ["p1"]) []
      = (some (Err.errorf "only owners can modify global DNS target projects"),
        [] ++ [Event.byID "ns:dns", Event.get "ns" "dns"]) ∧
    numUpdates (ActionHandler (holding (sampleEnv AccessType.ReadonlyAccess)
        (sampleRecord ["p1"] "")) removeProjectsAction (sampleRequest ["p1"]) []).2
      = numUpdates [] ∧
    committed (ActionHandler (holding (sampleEnv AccessType.ReadonlyAccess)
        (sampleRecord ["p1"] "")) removeProjectsAction (sampleRequest ["p1"]) []).2
      = committed [] ∧
    responses (ActionHandler (holding (sampleEnv AccessType.ReadonlyAccess)
        (sampleRecord ["p1"] "")) removeProjectsAction (sampleRequest ["p1"]) []).2
      = responses [] :=
  non_owner_rejected (holding (sampleEnv AccessType.ReadonlyAccess) (sampleRecord ["p1"] ""))
    removeProjectsAction (sampleRequest ["p1"]) [] "ns" "dns" "u1" (sampleRecord ["p1"] "")
    AccessType.ReadonlyAccess rfl (by decide) rfl rfl rfl (by decide)

/-- C5: on a record whose multi-cluster-application binding is not empty, an
owner's `addProjects` fails, whatever the input and whatever the target
authorizer answers, with the `InvalidOption` API error whose message ends with
the binding's value; it issues no store write, commits nothing and writes no
response. -/
theorem addProjects_rejected_when_bound (env : Env) (request : APIContext) (w : World)
    (gDNS : GlobalDNS) (input : List String)
    (h : OwnerDispatch env request w gDNS input)
    (hmca : gDNS.MultiClusterAppName ≠ "") :
    (ActionHandler env addProjectsAction request w).1
      = some (Err.apiError InvalidOption
          ("cannot add projects to globaldns as targets if multiclusterappID is set "
            ++ gDNS.MultiClusterAppName)) ∧
    numUpdates (ActionHandler env addProjectsAction request w).2 = numUpdates w ∧
    committed (ActionHandler env addProjectsAction request w).2 = committed w ∧
    responses (ActionHandler env addProjectsAction request w).2 = responses w := by
  obtain ⟨ns, name, -, hrun⟩ := ActionHandler_add_bound env request w gDNS input h hmca
  rw [hrun]
  simp

/-- C5 witness: a record bound to `app1`. -/
theorem addProjects_rejected_when_bound_witness :
    (ActionHandler (holding (sampleEnv AccessType.OwnerAccess) (sampleRecord ["p1"] "app1"))
        addProjectsAction (sampleRequest ["p2"]) []).1
      = some (Err.apiError InvalidOption
          ("cannot add projects to globaldns as targets if multiclusterappID is set "
            ++ "app1")) ∧
    numUpdates (ActionHandler (holding (sampleEnv AccessType.OwnerAccess)
        (sampleRecord ["p1"] "app1")) addProjectsAction (sampleRequest ["p2"]) []).2
      = numUpdates [] ∧
    committed (ActionHandler (holding (sampleEnv AccessType.OwnerAccess)
        (sampleRecord ["p1"] "app1")) addProjectsAction (sampleRequest ["p2"]) []).2
      = committed [] ∧
    responses (ActionHandler (holding (sampleEnv AccessType.OwnerAccess)
        (sampleRecord ["p1"] "app1")) addProjectsAction (sampleRequest ["p2"]) []).2
      = responses [] :=
  addProjects_rejected_when_bound (holding (sampleEnv AccessType.OwnerAccess)
      (sampleRecord ["p1"] "app1")) (sampleRequest ["p2"]) [] (sampleRecord ["p1"] "app1")
    ["p2"] (sample_dispatch _ _ _ rfl) (by decide)

/-! ## Retry behaviour of the updater -/

theorem updateGDNS_then_success (env : Env) (gDNS : GlobalDNS) (t : List String)
    (message : String) (w : World) (k : Nat) (hk : k < 7)
    (h : ∀ i, i < k → conflictAt env gDNS t (numGets w + i) (numUpdates w + i) = true)
    (hs : successAt env gDNS t (numGets w + k) (numUpdates w + k) = true) :
    ∃ (ext : World) (latest : GlobalDNS),
      updateGDNS env gDNS t message w
        = (none, w ++ ext ++ [Event.get gDNS.Namespace gDNS.Name,
            Event.update { latest with ProjectNames := t } none,
            Event.response StatusOK [("message", message)]]) ∧
      numGets ext = k ∧ numUpdates ext = k ∧ committed ext = [] ∧ responses ext = [] := by
  obtain ⟨ext, latest, hb, h2, h3, h4, h5⟩ := backoff_then_success env gDNS t k (6 - k) w h hs
  have h7 : k + (6 - k + 1) = 7 := by omega
  rw [h7] at hb
  exact ⟨ext, latest, by simp [updateGDNS, backoffSteps, hb], h2, h3, h4, h5⟩

theorem updateGDNS_exhausted (env : Env) (gDNS : GlobalDNS) (t : List String)
    (message : String) (w : World)
    (h : ∀ i, i < 7 → conflictAt env gDNS t (numGets w + i) (numUpdates w + i) = true) :
    ∃ ext : World,
      updateGDNS env gDNS t message w = (some Err.waitTimeout, w ++ ext) ∧
      numGets ext = 7 ∧ numUpdates ext = 7 ∧ committed ext = [] ∧ responses ext = [] := by
  obtain ⟨ext, hb, h2, h3, h4, h5⟩ := backoff_exhausted env gDNS t 7 w h
  exact ⟨ext, by simp [updateGDNS, backoffSteps, hb], h2, h3, h4, h5⟩

/-- C6: with every re-read succeeding, if the first `k < 7` writes of the
updater are refused with a conflict and the next is accepted, the updater
returns no error, commits the object with the desired targets and writes the
200 response with the message; if 7 writes in a row are refused with a
conflict, it returns the timeout error, writes no response and commits
nothing. -/
theorem updateGDNS_conflict_retry (env : Env) (gDNS : GlobalDNS) (t : List String)
    (message : String) (w : World) (k : Nat)
    (hconf : ∀ i, i < k →
      conflictAt env gDNS t (numGets w + i) (numUpdates w + i) = true)
    (hnext : k < 7 → successAt env gDNS t (numGets w + k) (numUpdates w + k) = true) :
    (k < 7 →
      (updateGDNS env gDNS t message w).1 = none ∧
      responses (updateGDNS env gDNS t message w).2
        = responses w ++ [(StatusOK, [("message", message)])] ∧
      ∃ obj : GlobalDNS,
        committed (updateGDNS env gDNS t message w).2 = committed w ++ [obj] ∧
        obj.ProjectNames = t) ∧
    (k = 7 →
      (updateGDNS env gDNS t message w).1 = some Err.waitTimeout ∧
      responses (updateGDNS env gDNS t message w).2 = responses w ∧
      committed (updateGDNS env gDNS t message w).2 = committed w) := by
  constructor
  · intro hlt
    obtain ⟨ext, latest, hrun, -, -, hc, hr⟩ :=
      updateGDNS_then_success env gDNS t message w k hlt hconf (hnext hlt)
    rw [hrun]
    exact ⟨rfl, by simp [hr], { latest with ProjectNames := t }, by simp [hc], rfl⟩
  · intro heq
    subst heq
    obtain ⟨ext, hrun, -, -, hc, hr⟩ := updateGDNS_exhausted env gDNS t message w hconf
    rw [hrun]
    exact ⟨rfl, by simp [hr], by simp [hc]⟩

/-- C6 witness: two conflicts and then success; seven conflicts. -/
theorem updateGDNS_conflict_retry_witness :
    ((updateGDNS (conflictEnv (sampleRecord ["p1"] "") 2) (sampleRecord ["p1"] "") ["p1", "p2"]
        "addedProjects" []).1 = none ∧
      responses (updateGDNS (conflictEnv (sampleRecord ["p1"] "") 2) (sampleRecord ["p1"] "")
        ["p1", "p2"] "addedProjects" []).2
        = responses [] ++ [(StatusOK, [("message", "addedProjects")])] ∧
      ∃ obj : GlobalDNS,
        committed (updateGDNS (conflictEnv (sampleRecord ["p1"] "") 2) (sampleRecord ["p1"] "")
          ["p1", "p2"] "addedProjects" []).2 = committed [] ++ [obj] ∧
        obj.ProjectNames = ["p1", "p2"]) ∧
    ((updateGDNS (conflictEnv (sampleRecord ["p1"] "") 7) (sampleRecord ["p1"] "") ["p1", "p2"]
        "addedProjects" []).1 = some Err.waitTimeout ∧
      responses (updateGDNS (conflictEnv (sampleRecord ["p1"] "") 7) (sampleRecord ["p1"] "")
        ["p1", "p2"] "addedProjects" []).2 = responses [] ∧
      committed (updateGDNS (conflictEnv (sampleRecord ["p1"] "") 7) (sampleRecord ["p1"] "")
        ["p1", "p2"] "addedProjects" []).2 = committed []) :=
  ⟨(updateGDNS_conflict_retry (conflictEnv (sampleRecord ["p1"] "") 2) (sampleRecord ["p1"] "")
      ["p1", "p2"] "addedProjects" [] 2 (by decide) (fun _ => by decide)).1
      (by decide),
    (updateGDNS_conflict_retry (conflictEnv (sampleRecord ["p1"] "") 7) (sampleRecord ["p1"] "")
      ["p1", "p2"] "addedProjects" [] 7 (by decide)
      (fun h => absurd h (by decide))).2 rfl⟩

theorem updateGDNS_then_readFails (env : Env) (gDNS : GlobalDNS) (t : List String)
    (message : String) (w : World) (k : Nat) (e : Err) (hk : k < 7)
    (h : ∀ i, i < k → conflictAt env gDNS t (numGets w + i) (numUpdates w + i) = true)
    (hf : readFailsAt env gDNS (numGets w + k) e = true) :
    ∃ ext : World,
      updateGDNS env gDNS t message w
        = (some e, w ++ ext ++ [Event.get gDNS.Namespace gDNS.Name]) ∧
      numGets ext = k ∧ numUpdates ext = k ∧ committed ext = [] ∧ responses ext = [] := by
  obtain ⟨ext, hb, h2, h3, h4, h5⟩ := backoff_then_readFails env gDNS t k (6 - k) w e h hf
  have h7 : k + (6 - k + 1) = 7 := by omega
  rw [h7] at hb
  exact ⟨ext, by simp [updateGDNS, backoffSteps, hb], h2, h3, h4, h5⟩

theorem updateGDNS_then_writeFails (env : Env) (gDNS : GlobalDNS) (t : List String)
    (message : String) (w : World) (k : Nat) (e : Err) (hk : k < 7)
    (h : ∀ i, i < k → conflictAt env gDNS t (numGets w + i) (numUpdates w + i) = true)
    (hf : writeFailsAt env gDNS t (numGets w + k) (numUpdates w + k) e = true) :
    ∃ (ext : World) (latest : GlobalDNS),
      updateGDNS env gDNS t message w
        = (some e, w ++ ext ++ [Event.get gDNS.Namespace gDNS.Name,
            Event.update { latest with ProjectNames := t } (some e)]) ∧
      numGets ext = k ∧ numUpdates ext = k ∧ committed ext = [] ∧ responses ext = [] := by
  obtain ⟨ext, latest, hb, h2, h3, h4, h5⟩ :=
    backoff_then_writeFails env gDNS t k (6 - k) w e h hf
  have h7 : k + (6 - k + 1) = 7 := by omega
  rw [h7] at hb
  exact ⟨ext, latest, by simp [updateGDNS, backoffSteps, hb], h2, h3, h4, h5⟩

/-- C7: if, after `k < 7` attempts that ended in a write conflict, the re-read
of the record fails with `e`, or the write fails with an error `e` that is not
a conflict, the updater returns `e`, writes no response and commits nothing,
and the failing call is the last event of its log: it has issued `k + 1` reads
and `k` writes (read failure) or `k + 1` writes (write failure), and no call
after the failing one. -/
theorem updateGDNS_stops_on_failure (env : Env) (gDNS : GlobalDNS) (t : List String)
    (message : String) (w : World) (k : Nat) (e : Err) (hk : k < 7)
    (hconf : ∀ i, i < k →
      conflictAt env gDNS t (numGets w + i) (numUpdates w + i) = true)
    (hfail : readFailsAt env gDNS (numGets w + k) e = true ∨
      writeFailsAt env gDNS t (numGets w + k) (numUpdates w + k) e = true) :
    (updateGDNS env gDNS t message w).1 = some e ∧
    responses (updateGDNS env gDNS t message w).2 = responses w ∧
    committed (updateGDNS env gDNS t message w).2 = committed w ∧
    numGets (updateGDNS env gDNS t message w).2 = numGets w + (k + 1) ∧
    ((readFailsAt env gDNS (numGets w + k) e = true ∧
        numUpdates (updateGDNS env gDNS t message w).2 = numUpdates w + k ∧
        (updateGDNS env gDNS t message w).2.getLast?
          = some (Event.get gDNS.Namespace gDNS.Name)) ∨
      (writeFailsAt env gDNS t (numGets w + k) (numUpdates w + k) e = true ∧
        numUpdates (updateGDNS env gDNS t message w).2 = numUpdates w + (k + 1) ∧
        ∃ latest : GlobalDNS, (updateGDNS env gDNS t message w).2.getLast?
          = some (Event.update { latest with ProjectNames := t } (some e)))) := by
  rcases hfail with hf | hf
  · obtain ⟨ext, hrun, h2, h3, h4, h5⟩ :=
      updateGDNS_then_readFails env gDNS t message w k e hk hconf hf
    rw [hrun]
    refine ⟨rfl, by simp [h5], by simp [h4], by simp [h2], Or.inl ⟨hf, ?_, ?_⟩⟩
    · simp [h3]
    · simp
  · obtain ⟨ext, latest, hrun, h2, h3, h4, h5⟩ :=
      updateGDNS_then_writeFails env gDNS t message w k e hk hconf hf
    rw [hrun]
    refine ⟨rfl, by simp [h5], by simp [h4], by simp [h2],
      Or.inr ⟨hf, ?_, latest, ?_⟩⟩
    · simp [h3]
    · simp

/-- C7 witness: a forbidden third write after two conflicts, and a failing
second read after one conflict. -/
theorem updateGDNS_stops_on_failure_witness :
    ((updateGDNS (writeFaultEnv (sampleRecord ["p1"] "")) (sampleRecord ["p1"] "") ["p2"]
        "addedProjects" []).1 = some (Err.status "Forbidden" "forbidden") ∧
      responses (updateGDNS (writeFaultEnv (sampleRecord ["p1"] "")) (sampleRecord ["p1"] "")
        ["p2"] "addedProjects" []).2 = responses [] ∧
      committed (updateGDNS (writeFaultEnv (sampleRecord ["p1"] "")) (sampleRecord ["p1"] "")
        ["p2"] "addedProjects" []).2 = committed [] ∧
      numGets (updateGDNS (writeFaultEnv (sampleRecord ["p1"] "")) (sampleRecord ["p1"] "")
        ["p2"] "addedProjects" []).2 = numGets [] + (2 + 1)) ∧
    ((updateGDNS (readFaultEnv (sampleRecord ["p1"] "")) (sampleRecord ["p1"] "") ["p2"]
        "addedProjects" []).1 = some (Err.other "connection refused") ∧
      responses (updateGDNS (readFaultEnv (sampleRecord ["p1"] "")) (sampleRecord ["p1"] "")
        ["p2"] "addedProjects" []).2 = responses [] ∧
      committed (updateGDNS (readFaultEnv (sampleRecord ["p1"] "")) (sampleRecord ["p1"] "")
        ["p2"] "addedProjects" []).2 = committed [] ∧
      numGets (updateGDNS (readFaultEnv (sampleRecord ["p1"] "")) (sampleRecord ["p1"] "")
        ["p2"] "addedProjects" []).2 = numGets [] + (1 + 1)) :=
  ⟨(fun h => ⟨h.1, h.2.1, h.2.2.1, h.2.2.2.1⟩)
      (updateGDNS_stops_on_failure (writeFaultEnv (sampleRecord ["p1"] ""))
        (sampleRecord ["p1"] "") ["p2"] "addedProjects" [] 2
        (Err.status "Forbidden" "forbidden") (by decide) (by decide) (Or.inr (by decide))),
    (fun h => ⟨h.1, h.2.1, h.2.2.1, h.2.2.2.1⟩)
      (updateGDNS_stops_on_failure (readFaultEnv (sampleRecord ["p1"] ""))
        (sampleRecord ["p1"] "") ["p2"] "addedProjects" [] 1
        (Err.other "connection refused") (by decide) (by decide) (Or.inl (by decide)))⟩

/-- C8: every run of the updater issues at most 7 record reads and at most 7
record writes; when the first `k ≤ 6` writes conflict and the next is accepted
it issues exactly `k + 1` reads and `k + 1` writes, the accepted write is the
only one committed, and the log ends with that write followed by the response:
no read or write comes after it. -/
theorem updateGDNS_bounded_attempts (env : Env) (gDNS : GlobalDNS) (t : List String)
    (message : String) (w : World) :
    (numGets (updateGDNS env gDNS t message w).2 ≤ numGets w + 7 ∧
      numUpdates (updateGDNS env gDNS t message w).2 ≤ numUpdates w + 7) ∧
    ∀ k, k ≤ 6 →
      (∀ i, i < k → conflictAt env gDNS t (numGets w + i) (numUpdates w + i) = true) →
      successAt env gDNS t (numGets w + k) (numUpdates w + k) = true →
      numGets (updateGDNS env gDNS t message w).2 = numGets w + (k + 1) ∧
      numUpdates (updateGDNS env gDNS t message w).2 = numUpdates w + (k + 1) ∧
      ∃ (pre : World) (obj : GlobalDNS),
        (updateGDNS env gDNS t message w).2
          = pre ++ [Event.update obj none, Event.response StatusOK [("message", message)]] ∧
        committed pre = committed w := by
  constructor
  · obtain ⟨ext, h1, h2, h3, -⟩ := updateGDNS_trace env gDNS t message w
    rw [h1]
    simp only [numGets_append, numUpdates_append]
    omega
  · intro k hk hconf hs
    obtain ⟨ext, latest, hrun, h2, h3, h4, h5⟩ :=
      updateGDNS_then_success env gDNS t message w k (by omega) hconf hs
    rw [hrun]
    refine ⟨by simp [h2], by simp [h3],
      w ++ ext ++ [Event.get gDNS.Namespace gDNS.Name], { latest with ProjectNames := t },
      by simp, by simp [h4]⟩

/-- C8 witness: conflict, conflict, success gives exactly three writes. -/
theorem updateGDNS_bounded_attempts_witness :
    numGets (updateGDNS (conflictEnv (sampleRecord ["p1"] "") 2) (sampleRecord ["p1"] "")
      ["p2"] "addedProjects" []).2 = numGets [] + (2 + 1) ∧
    numUpdates (updateGDNS (conflictEnv (sampleRecord ["p1"] "") 2) (sampleRecord ["p1"] "")
      ["p2"] "addedProjects" []).2 = numUpdates [] + (2 + 1) ∧
    ∃ (pre : World) (obj : GlobalDNS),
      (updateGDNS (conflictEnv (sampleRecord ["p1"] "") 2) (sampleRecord ["p1"] "")
        ["p2"] "addedProjects" []).2
        = pre ++ [Event.update obj none,
            Event.response StatusOK [("message", "addedProjects")]] ∧
      committed pre = committed [] :=
  (updateGDNS_bounded_attempts (conflictEnv (sampleRecord ["p1"] "") 2)
    (sampleRecord ["p1"] "") ["p2"] "addedProjects" []).2 2 (by decide) (by decide) (by decide)

/-! ## Algebraic properties -/

/-- C9: `removeProjects` is idempotent.  When an owner's `removeProjects` with
input `X` succeeds, and a second one with the same input succeeds on a record
whose targets are those the first one persisted, the second persists the same
target sequence as the first (filtering by `X` twice is filtering once). -/
theorem removeProjects_idempotent (env1 env2 : Env) (request1 request2 : APIContext)
    (w1 w2 : World) (gDNS1 gDNS2 : GlobalDNS) (input : List String)
    (h1 : OwnerDispatch env1 request1 w1 gDNS1 input)
    (hok1 : (ActionHandler env1 removeProjectsAction request1 w1).1 = none)
    (h2 : OwnerDispatch env2 request2 w2 gDNS2 input)
    (hok2 : (ActionHandler env2 removeProjectsAction request2 w2).1 = none)
    (hstore : ∀ obj : GlobalDNS,
      committed (ActionHandler env1 removeProjectsAction request1 w1).2
        = committed w1 ++ [obj] → gDNS2.ProjectNames = obj.ProjectNames) :
    ∃ o1 o2 : GlobalDNS,
      committed (ActionHandler env1 removeProjectsAction request1 w1).2
        = committed w1 ++ [o1] ∧
      committed (ActionHandler env2 removeProjectsAction request2 w2).2
        = committed w2 ++ [o2] ∧
      o1.ProjectNames = gDNS1.ProjectNames.filter (fun p => decide (p ∉ input)) ∧
      o2.ProjectNames = o1.ProjectNames := by
  obtain ⟨l1, hc1, -⟩ := remove_persists env1 request1 w1 gDNS1 input h1 hok1
  obtain ⟨l2, hc2, -⟩ := remove_persists env2 request2 w2 gDNS2 input h2 hok2
  have hs := hstore _ hc1
  refine ⟨_, _, hc1, hc2, by simp, ?_⟩
  simp only [hs]
  simp [List.filter_filter]

/-- C9 witness: removing `["p2"]` from `["p1", "p2", "p3"]` and then again from
the persisted `["p1", "p3"]`. -/
theorem removeProjects_idempotent_witness :
    ∃ o1 o2 : GlobalDNS,
      committed (ActionHandler (holding (sampleEnv AccessType.OwnerAccess)
          (sampleRecord ["p1", "p2", "p3"] "")) removeProjectsAction (sampleRequest ["p2"])
          []).2 = committed [] ++ [o1] ∧
      committed (ActionHandler (holding (sampleEnv AccessType.OwnerAccess)
          (sampleRecord ["p1", "p3"] "")) removeProjectsAction (sampleRequest ["p2"])
          []).2 = committed [] ++ [o2] ∧
      o1.ProjectNames = ["p1", "p3"] ∧
      o2.ProjectNames = o1.ProjectNames :=
  removeProjects_idempotent
    (holding (sampleEnv AccessType.OwnerAccess) (sampleRecord ["p1", "p2", "p3"] ""))
    (holding (sampleEnv AccessType.OwnerAccess) (sampleRecord ["p1", "p3"] ""))
    (sampleRequest ["p2"]) (sampleRequest ["p2"]) [] []
    (sampleRecord ["p1", "p2", "p3"] "") (sampleRecord ["p1", "p3"] "") ["p2"]
    (sample_dispatch _ _ _ rfl) (by decide) (sample_dispatch _ _ _ rfl) (by decide)
    (by
      intro obj h
      have hc : committed (ActionHandler (holding (sampleEnv AccessType.OwnerAccess)
          (sampleRecord ["p1", "p2", "p3"] "")) removeProjectsAction (sampleRequest ["p2"])
          []).2 = [sampleRecord ["p1", "p3"] ""] := by decide
      rw [hc] at h
      simp at h
      rw [← h])

/-- C10 (defect of the code): after an owner's successful `addProjects` of
`["p3"]` on a record with targets `["p1", "p2"]` the persisted sequence is
`["p3"]`, whose set of ids is not the union of the existing ids and the input
(`p1` is lost); adding `["p1"]` to targets `["p1"]` persists the empty
sequence.  Same defect as C1: only the ids to add reach the updater. -/
theorem addProjects_result_is_not_union :
    (ActionHandler (holding (sampleEnv AccessType.OwnerAccess) (sampleRecord ["p1", "p2"] ""))
        addProjectsAction (sampleRequest ["p3"]) []).1 = none ∧
    (∃ obj : GlobalDNS,
      committed (ActionHandler (holding (sampleEnv AccessType.OwnerAccess)
        (sampleRecord ["p1", "p2"] "")) addProjectsAction (sampleRequest ["p3"]) []).2
        = [obj] ∧
      obj.ProjectNames = ["p3"] ∧
      ¬ (∀ p : String, p ∈ obj.ProjectNames ↔ (p ∈ ["p1", "p2"] ∨ p ∈ ["p3"]))) ∧
    (ActionHandler (holding (sampleEnv AccessType.OwnerAccess) (sampleRecord ["p1"] ""))
        addProjectsAction (sampleRequest ["p1"]) []).1 = none ∧
    (committed (ActionHandler (holding (sampleEnv AccessType.OwnerAccess)
        (sampleRecord ["p1"] "")) addProjectsAction (sampleRequest ["p1"]) []).2).map
      GlobalDNS.ProjectNames = [[]] := by
  refine ⟨by decide, ⟨sampleRecord ["p3"] "", by decide, rfl, ?_⟩, by decide, by decide⟩
  intro h
  exact absurd ((h "p1").2 (Or.inl (by decide))) (by decide)

/-! ## Further rejections -/

theorem guarded_dispatch (rec : GlobalDNS) (denied input : List String) (w : World)
    (hann : rec.Annotations.lookup "field.cattle.io/creatorId" = some "u1") :
    OwnerDispatch (guardedEnv rec denied) (sampleRequest input) w rec input :=
  ⟨rfl, "ns", "dns", "u1", [(UpdateGlobalDNSTargetsInputFieldProjectIDs, input)],
    by show SplitN "ns:dns" ':' 2 = ["ns", "dns"]; decide, rfl, hann, rfl, rfl,
    by simp [UpdateGlobalDNSTargetsInputFieldProjectIDs]⟩

/-- C11: on a record with an empty multi-cluster-application binding, when the
target authorizer, asked about the whole decoded input, answers with an error,
an owner's `addProjects` returns that error, issues no store write, commits
nothing and writes no response. -/
theorem addProjects_rejected_when_denied (env : Env) (request : APIContext) (w : World)
    (gDNS : GlobalDNS) (input : List String) (e : Err)
    (h : OwnerDispatch env request w gDNS input)
    (hmca : gDNS.MultiClusterAppName = "")
    (hacc : env.checkCallerAccessToTargets request input = some e) :
    (ActionHandler env addProjectsAction request w).1 = some e ∧
    numUpdates (ActionHandler env addProjectsAction request w).2 = numUpdates w ∧
    committed (ActionHandler env addProjectsAction request w).2 = committed w ∧
    responses (ActionHandler env addProjectsAction request w).2 = responses w := by
  obtain ⟨ns, name, -, hrun⟩ := ActionHandler_add_denied env request w gDNS input h hmca e hacc
  rw [hrun]
  simp

/-- C11 witness: the caller has no access to `p1`, which is already a target;
adding `["p1", "p2"]` is refused. -/
theorem addProjects_rejected_when_denied_witness :
    (ActionHandler (guardedEnv (sampleRecord ["p1"] "") ["p1"]) addProjectsAction
        (sampleRequest ["p1", "p2"]) []).1
      = some (Err.apiError "PermissionDenied" "access to project denied") ∧
    numUpdates (ActionHandler (guardedEnv (sampleRecord ["p1"] "") ["p1"]) addProjectsAction
        (sampleRequest ["p1", "p2"]) []).2 = numUpdates [] ∧
    committed (ActionHandler (guardedEnv (sampleRecord ["p1"] "") ["p1"]) addProjectsAction
        (sampleRequest ["p1", "p2"]) []).2 = committed [] ∧
    responses (ActionHandler (guardedEnv (sampleRecord ["p1"] "") ["p1"]) addProjectsAction
        (sampleRequest ["p1", "p2"]) []).2 = responses [] :=
  addProjects_rejected_when_denied (guardedEnv (sampleRecord ["p1"] "") ["p1"])
    (sampleRequest ["p1", "p2"]) [] (sampleRecord ["p1"] "") ["p1", "p2"]
    (Err.apiError "PermissionDenied" "access to project denied")
    (guarded_dispatch _ _ _ _ rfl) rfl (by decide)

/-- C14: for an action name other than `addProjects` and `removeProjects`, a
call by an owner on an existing record fails with the error whose message is
"bad action for global dns " followed by the name; it issues no store write,
commits nothing and writes no response. -/
theorem unknown_action_rejected (env : Env) (actionName : String) (request : APIContext)
    (w : World) (gDNS : GlobalDNS) (input : List String)
    (h : OwnerDispatch env request w gDNS input)
    (ha : actionName ≠ addProjectsAction) (hr : actionName ≠ removeProjectsAction) :
    (ActionHandler env actionName request w).1
      = some (Err.errorf ("bad action for global dns " ++ actionName)) ∧
    numUpdates (ActionHandler env actionName request w).2 = numUpdates w ∧
    committed (ActionHandler env actionName request w).2 = committed w ∧
    responses (ActionHandler env actionName request w).2 = responses w := by
  obtain ⟨ns, name, -, hrun⟩ :=
    ActionHandler_bad_action env actionName request w gDNS input h ha hr
  rw [hrun]
  simp

/-- C14 witness: the action name `setProjects`. -/
theorem unknown_action_rejected_witness :
    (ActionHandler (holding (sampleEnv AccessType.OwnerAccess) (sampleRecord ["p1"] ""))
        "setProjects" (sampleRequest ["p2"]) []).1
      = some (Err.errorf ("bad action for global dns " ++ "setProjects")) ∧
    numUpdates (ActionHandler (holding (sampleEnv AccessType.OwnerAccess)
        (sampleRecord ["p1"] "")) "setProjects" (sampleRequest ["p2"]) []).2 = numUpdates [] ∧
    committed (ActionHandler (holding (sampleEnv AccessType.OwnerAccess)
        (sampleRecord ["p1"] "")) "setProjects" (sampleRequest ["p2"]) []).2 = committed [] ∧
    responses (ActionHandler (holding (sampleEnv AccessType.OwnerAccess)
        (sampleRecord ["p1"] "")) "setProjects" (sampleRequest ["p2"]) []).2 = responses [] :=
  unknown_action_rejected (holding (sampleEnv AccessType.OwnerAccess) (sampleRecord ["p1"] ""))
    "setProjects" (sampleRequest ["p2"]) [] (sampleRecord ["p1"] "") ["p2"]
    (sample_dispatch _ _ _ rfl) (by decide) (by decide)

/-! ## The record id -/

theorem splitNChars_no_sep (sep : Char) (s : List Char) (h : sep ∉ s) :
    splitNChars sep 2 s = [s] := by
  have hall : ∀ x ∈ s, (x != sep) = true := by
    intro x hx
    have hne : x ≠ sep := fun heq => h (heq ▸ hx)
    simpa using hne
  have hspan : s.span (fun c => c != sep) = (s, []) := by
    rw [List.span_eq_take_drop, List.takeWhile_eq_self_iff.2 hall,
      List.dropWhile_eq_nil_iff.2 hall]
  unfold splitNChars
  rw [hspan]

theorem SplitN_no_sep (s : String) (h : ':' ∉ s.toList) : SplitN s ':' 2 = [s] := by
  unfold SplitN
  rw [splitNChars_no_sep ':' s.toList h]
  rfl

/-- C12 (as stated, refuted): the id `a:b:c` is not rejected: it is split at
its first colon and the handler reads the record `b:c` of namespace `a`; and
for the id `abc` the handler returns the error of `access.ByID`, not
"incorrect global DNS ID", when that check fails. -/
theorem id_with_two_colons_accepted :
    SplitN "a:b:c" ':' 2 = ["a", "b:c"] ∧
    (ActionHandler (holding (sampleEnv AccessType.OwnerAccess) (sampleRecord ["p1"] ""))
        removeProjectsAction (requestFor "a:b:c" ["p1"]) []).1 = none ∧
    Event.get "a" "b:c" ∈
      (ActionHandler (holding (sampleEnv AccessType.OwnerAccess) (sampleRecord ["p1"] ""))
        removeProjectsAction (requestFor "a:b:c" ["p1"]) []).2 ∧
    numUpdates (ActionHandler (holding (sampleEnv AccessType.OwnerAccess)
        (sampleRecord ["p1"] "")) removeProjectsAction (requestFor "a:b:c" ["p1"]) []).2 = 1 ∧
    (ActionHandler (unreadableEnv (sampleRecord ["p1"] "")) removeProjectsAction
        (requestFor "abc" ["p1"]) []).1 = some (Err.apiError "NotFound" "not found") := by
  decide

/-- C12 (amended): when `access.ByID` passes and the record id holds no colon,
the handler fails with "incorrect global DNS ID" before any read of the record
by namespace and name and before any write. -/
theorem id_without_colon_rejected (env : Env) (actionName : String) (request : APIContext)
    (w : World) (h1 : env.byID request.ID = none) (hno : ':' ∉ request.ID.toList) :
    ActionHandler env actionName request w
      = (some (Err.errorf "incorrect global DNS ID"), w ++ [Event.byID request.ID]) ∧
    numGets (ActionHandler env actionName request w).2 = numGets w ∧
    numUpdates (ActionHandler env actionName request w).2 = numUpdates w ∧
    responses (ActionHandler env actionName request w).2 = responses w := by
  have hrun : ActionHandler env actionName request w
      = (some (Err.errorf "incorrect global DNS ID"), w ++ [Event.byID request.ID]) := by
    simp [ActionHandler, h1, SplitN_no_sep request.ID hno]
  rw [hrun]
  simp

/-- C12 witness: the id `abc`. -/
theorem id_without_colon_rejected_witness :
    ActionHandler (holding (sampleEnv AccessType.OwnerAccess) (sampleRecord ["p1"] ""))
        addProjectsAction (requestFor "abc" ["p2"]) []
      = (some (Err.errorf "incorrect global DNS ID"), [] ++ [Event.byID "abc"]) ∧
    numGets (ActionHandler (holding (sampleEnv AccessType.OwnerAccess)
        (sampleRecord ["p1"] "")) addProjectsAction (requestFor "abc" ["p2"]) []).2
      = numGets [] ∧
    numUpdates (ActionHandler (holding (sampleEnv AccessType.OwnerAccess)
        (sampleRecord ["p1"] "")) addProjectsAction (requestFor "abc" ["p2"]) []).2
      = numUpdates [] ∧
    responses (ActionHandler (holding (sampleEnv AccessType.OwnerAccess)
        (sampleRecord ["p1"] "")) addProjectsAction (requestFor "abc" ["p2"]) []).2
      = responses [] :=
  id_without_colon_rejected (holding (sampleEnv AccessType.OwnerAccess)
      (sampleRecord ["p1"] "")) addProjectsAction (requestFor "abc" ["p2"]) [] rfl (by decide)

/-! ## The response -/

theorem updateGDNS_response (env : Env) (gDNS : GlobalDNS) (t : List String)
    (message : String) (w : World) :
    ((updateGDNS env gDNS t message w).1 ≠ none →
      responses (updateGDNS env gDNS t message w).2 = responses w) ∧
    ((updateGDNS env gDNS t message w).1 = none →
      ∃ (pre : World) (obj : GlobalDNS),
        (updateGDNS env gDNS t message w).2
          = pre ++ [Event.update obj none, Event.response StatusOK [("message", message)]] ∧
        responses pre = responses w) := by
  obtain ⟨ext, h1, -, -, h4, h5⟩ := updateGDNS_trace env gDNS t message w
  constructor
  · intro hne
    rw [h1]
    simp [(h5 hne).2]
  · intro hok
    obtain ⟨pre, latest, hp, -, hr⟩ := h4 hok
    refine ⟨w ++ pre ++ [Event.get gDNS.Namespace gDNS.Name],
      { latest with ProjectNames := t }, ?_, ?_⟩
    · rw [h1, hp]; simp
    · simp [hr]

/-- C15: the handler writes a response exactly when it returns no error.  A run
that returns an error writes none; a run that returns no error is a run of
`addProjects` or `removeProjects` whose log ends with the accepted store write
followed by the one response it writes, which has status 200 and the body
`message ↦ addedProjects` for `addProjects` and `message ↦ removedProjects` for
`removeProjects`. -/
theorem response_iff_success (env : Env) (actionName : String) (request : APIContext)
    (w : World) :
    ((ActionHandler env actionName request w).1 ≠ none →
      responses (ActionHandler env actionName request w).2 = responses w) ∧
    ((ActionHandler env actionName request w).1 = none →
      (actionName = addProjectsAction ∨ actionName = removeProjectsAction) ∧
      ∃ (pre : World) (obj : GlobalDNS),
        (ActionHandler env actionName request w).2
          = pre ++ [Event.update obj none,
              Event.response StatusOK
                [("message", if actionName = addProjectsAction then "addedProjects"
                  else "removedProjects")]] ∧
        responses pre = responses w) := by
  rcases ActionHandler_pre_cases env actionName request w with
    ⟨gDNS, input, hd⟩ | ⟨e, ext, hrun, -, -, hr⟩
  · by_cases ha : actionName = addProjectsAction
    · subst ha
      by_cases hmca : gDNS.MultiClusterAppName = ""
      · cases hacc : env.checkCallerAccessToTargets request input with
        | some e =>
          obtain ⟨ns, name, -, hrun⟩ :=
            ActionHandler_add_denied env request w gDNS input hd hmca e hacc
          rw [hrun]; simp
        | none =>
          obtain ⟨ns, name, -, hrun⟩ := ActionHandler_add env request w gDNS input hd hmca hacc
          rw [hrun]
          obtain ⟨hf, hs⟩ := updateGDNS_response env gDNS
            (input.filter (fun p => !decide (p ∈ gDNS.ProjectNames))) "addedProjects"
            (w ++ [Event.byID request.ID, Event.get ns name])
          refine ⟨fun hne => by simpa using hf hne, fun hok => ⟨Or.inl rfl, ?_⟩⟩
          obtain ⟨pre, obj, hp, hr⟩ := hs hok
          exact ⟨pre, obj, by simpa using hp, by simpa using hr⟩
      · obtain ⟨ns, name, -, hrun⟩ := ActionHandler_add_bound env request w gDNS input hd hmca
        rw [hrun]; simp
    · by_cases hrm : actionName = removeProjectsAction
      · subst hrm
        obtain ⟨ns, name, -, hrun⟩ := ActionHandler_remove env request w gDNS input hd
        rw [hrun]
        obtain ⟨hf, hs⟩ := updateGDNS_response env gDNS
          (gDNS.ProjectNames.filter (fun p => !decide (p ∈ input))) "removedProjects"
          (w ++ [Event.byID request.ID, Event.get ns name])
        refine ⟨fun hne => by simpa using hf hne, fun hok => ⟨Or.inr rfl, ?_⟩⟩
        obtain ⟨pre, obj, hp, hr⟩ := hs hok
        exact ⟨pre, obj, by simpa [ha] using hp, by simpa using hr⟩
      · obtain ⟨ns, name, -, hrun⟩ :=
          ActionHandler_bad_action env actionName request w gDNS input hd ha hrm
        rw [hrun]; simp
  · rw [hrun]; simp [hr]

/-- C15 witness: a successful `removeProjects`, and an `addProjects` on a bound
record. -/
theorem response_iff_success_witness :
    (∃ (pre : World) (obj : GlobalDNS),
      (ActionHandler (holding (sampleEnv AccessType.OwnerAccess)
          (sampleRecord ["p1", "p2"] "")) removeProjectsAction (sampleRequest ["p2"]) []).2
        = pre ++ [Event.update obj none,
            Event.response StatusOK
              [("message", if removeProjectsAction = addProjectsAction then "addedProjects"
                else "removedProjects")]] ∧
      responses pre = responses []) ∧
    responses (ActionHandler (holding (sampleEnv AccessType.OwnerAccess)
        (sampleRecord ["p1"] "app1")) addProjectsAction (sampleRequest ["p2"]) []).2
      = responses [] :=
  ⟨((response_iff_success (holding (sampleEnv AccessType.OwnerAccess)
      (sampleRecord ["p1", "p2"] "")) removeProjectsAction (sampleRequest ["p2"]) []).2
      (by decide)).2,
    (response_iff_success (holding (sampleEnv AccessType.OwnerAccess)
      (sampleRecord ["p1"] "app1")) addProjectsAction (sampleRequest ["p2"]) []).1
      (by decide)⟩

/-! ## The error on exhaustion -/

/-- C16 (as stated, refuted): when all seven writes are refused with a conflict,
the updater returns the bare timeout error of the backoff helper; the conflict
error of the last write, which the log records, is not carried by it. -/
theorem timeout_does_not_carry_conflict :
    (updateGDNS (conflictEnv (sampleRecord ["p1"] "") 7) (sampleRecord ["p1"] "") ["p2"]
      "addedProjects" []).1 = some Err.waitTimeout ∧
    (updateGDNS (conflictEnv (sampleRecord ["p1"] "") 7) (sampleRecord ["p1"] "") ["p2"]
      "addedProjects" []).2.getLast?
      = some (Event.update (sampleRecord ["p2"] "")
          (some (Err.status StatusReasonConflict "conflict"))) ∧
    (updateGDNS (conflictEnv (sampleRecord ["p1"] "") 7) (sampleRecord ["p1"] "") ["p2"]
      "addedProjects" []).1
      ≠ some (Err.waitTimeoutCausedBy (Err.status StatusReasonConflict "conflict")) := by
  decide

/-- C16 (amended): when the updater uses up its seven attempts because every
write is refused with a conflict, the error it returns is the timeout error of
the backoff helper, and that error carries no cause: the attempt reports a
conflict to the helper as "not done" without an error. -/
theorem updateGDNS_timeout_has_no_cause (env : Env) (gDNS : GlobalDNS) (t : List String)
    (message : String) (w : World)
    (hconf : ∀ i, i < 7 →
      conflictAt env gDNS t (numGets w + i) (numUpdates w + i) = true) :
    (updateGDNS env gDNS t message w).1 = some Err.waitTimeout ∧
    ∀ cause : Err,
      (updateGDNS env gDNS t message w).1 ≠ some (Err.waitTimeoutCausedBy cause) := by
  obtain ⟨ext, hrun, -⟩ := updateGDNS_exhausted env gDNS t message w hconf
  rw [hrun]
  exact ⟨rfl, fun cause h => by simp at h⟩

/-- C16 witness: a store that refuses seven writes with a conflict. -/
theorem updateGDNS_timeout_has_no_cause_witness :
    (updateGDNS (conflictEnv (sampleRecord ["p1"] "") 7) (sampleRecord ["p1"] "") ["p2"]
      "removedProjects" []).1 = some Err.waitTimeout ∧
    ∀ cause : Err,
      (updateGDNS (conflictEnv (sampleRecord ["p1"] "") 7) (sampleRecord ["p1"] "") ["p2"]
        "removedProjects" []).1 ≠ some (Err.waitTimeoutCausedBy cause) :=
  updateGDNS_timeout_has_no_cause (conflictEnv (sampleRecord ["p1"] "") 7)
    (sampleRecord ["p1"] "") ["p2"] "removedProjects" [] (by decide)

/-! ## What the updater submits -/

theorem WritesRereadRecord_no_update (env : Env) (gDNS : GlobalDNS) (t : List String)
    (w ext : World) (h : numUpdates ext = 0) : WritesRereadRecord env gDNS t w ext := by
  intro pre post obj result he
  rw [he] at h
  simp at h

theorem WritesRereadRecord_append (env : Env) (gDNS : GlobalDNS) (t : List String)
    (w c ext : World) (hc : WritesRereadRecord env gDNS t w c)
    (he : WritesRereadRecord env gDNS t (w ++ c) ext) :
    WritesRereadRecord env gDNS t w (c ++ ext) := by
  intro pre post obj result h
  rcases List.append_eq_append_iff.1 h with ⟨a, hpre, hext⟩ | ⟨c', hcc, hpost⟩
  · obtain ⟨before, latest, h1, h2, h3⟩ := he a post obj result hext
    refine ⟨c ++ before, latest, ?_, ?_, h3⟩
    · rw [hpre, h1, List.append_assoc]
    · rw [← List.append_assoc]; exact h2
  · cases c' with
    | nil =>
      simp only [List.nil_append] at hpost
      obtain ⟨before, latest, h1, -, -⟩ := he [] post obj result (by simpa using hpost.symm)
      simp at h1
    | cons x c'' =>
      simp only [List.cons_append, List.cons.injEq] at hpost
      obtain ⟨hx, -⟩ := hpost
      subst hx
      exact hc pre c'' obj result hcc

theorem updateAttempt_writes (env : Env) (gDNS : GlobalDNS) (t : List String) (w : World) :
    ∃ c, (updateAttempt env gDNS t w).2 = w ++ c ∧ WritesRereadRecord env gDNS t w c := by
  unfold updateAttempt
  cases hr : env.getNamespaced (numGets w) gDNS.Namespace gDNS.Name with
  | error e =>
    exact ⟨[Event.get gDNS.Namespace gDNS.Name], by simp,
      WritesRereadRecord_no_update env gDNS t w _ (by simp)⟩
  | ok latest =>
    have hw : ∀ result : Option Err, WritesRereadRecord env gDNS t w
        [Event.get gDNS.Namespace gDNS.Name,
          Event.update { latest with ProjectNames := t } result] := by
      intro result pre post obj res h
      rcases pre with _ | ⟨x, _ | ⟨y, pre⟩⟩
      · simp at h
      · simp at h
        obtain ⟨hx, ⟨ho, -⟩, -⟩ := h
        exact ⟨[], latest, by simp [hx], by simpa using hr, ho.symm⟩
      · simp at h
    cases hu : env.update (numUpdates (w ++ [Event.get gDNS.Namespace gDNS.Name]))
        { latest with ProjectNames := t } with
    | none =>
      simp at hu
      exact ⟨[Event.get gDNS.Namespace gDNS.Name,
        Event.update { latest with ProjectNames := t } none], by simp [hu], hw none⟩
    | some e =>
      simp at hu
      refine ⟨[Event.get gDNS.Namespace gDNS.Name,
        Event.update { latest with ProjectNames := t } (some e)], ?_, hw (some e)⟩
      by_cases hc : IsConflict e = true <;> simp [hu, hc]

theorem backoff_writes (env : Env) (gDNS : GlobalDNS) (t : List String) (n : Nat)
    (last : Option Err) (w : World) :
    ∃ ext, (ExponentialBackoff n (updateAttempt env gDNS t) last w).2 = w ++ ext ∧
      WritesRereadRecord env gDNS t w ext := by
  induction n generalizing last w with
  | zero =>
    refine ⟨[], ?_, WritesRereadRecord_no_update env gDNS t w [] rfl⟩
    cases last <;> simp [ExponentialBackoff]
  | succ n ih =>
    obtain ⟨c, hc, hw⟩ := updateAttempt_writes env gDNS t w
    cases ha : updateAttempt env gDNS t w with
    | mk r w1 =>
      rw [ha] at hc
      simp only at hc
      subst hc
      obtain ⟨ok, err⟩ := r
      cases err with
      | some e => exact ⟨c, by simp [ExponentialBackoff, ha], hw⟩
      | none =>
        cases ok with
        | true => exact ⟨c, by simp [ExponentialBackoff, ha], hw⟩
        | false =>
          obtain ⟨ext, he, hx⟩ := ih none (w ++ c)
          refine ⟨c ++ ext, ?_, WritesRereadRecord_append env gDNS t w c ext hw hx⟩
          simp [ExponentialBackoff, ha, he]

theorem updateGDNS_writes (env : Env) (gDNS : GlobalDNS) (t : List String)
    (message : String) (w : World) :
    ∃ ext, (updateGDNS env gDNS t message w).2 = w ++ ext ∧
      WritesRereadRecord env gDNS t w ext := by
  obtain ⟨ext, he, hw⟩ := backoff_writes env gDNS t backoffSteps none w
  unfold updateGDNS
  cases hb : ExponentialBackoff backoffSteps (updateAttempt env gDNS t) none w with
  | mk r w1 =>
    rw [hb] at he
    simp only at he
    subst he
    cases r with
    | some e => exact ⟨ext, rfl, hw⟩
    | none =>
      refine ⟨ext ++ [Event.response StatusOK [("message", message)]], by simp, ?_⟩
      exact WritesRereadRecord_append env gDNS t w ext _ hw
        (WritesRereadRecord_no_update env gDNS t _ _ (by simp))

theorem updateGDNS_identity_only (env : Env) (gDNS other : GlobalDNS) (t : List String)
    (message : String) (w : World) (hns : other.Namespace = gDNS.Namespace)
    (hname : other.Name = gDNS.Name) :
    updateGDNS env other t message w = updateGDNS env gDNS t message w := by
  have ha : updateAttempt env other t = updateAttempt env gDNS t := by
    funext v
    simp [updateAttempt, hns, hname]
  simp [updateGDNS, ha]

/-- C17: the caller's record matters to the updater only through its namespace
and name (a record with the same two fields gives the same run), and every
object the updater submits comes right after a read of that namespace and name
and is the record this read returned with only the target sequence replaced by
the desired one: revision token, namespace, name, member list, annotations and
multi-cluster-application binding are those of the re-read record. -/
theorem updateGDNS_submits_reread_record (env : Env) (gDNS other : GlobalDNS)
    (t : List String) (message : String) (w : World)
    (hns : other.Namespace = gDNS.Namespace) (hname : other.Name = gDNS.Name) :
    updateGDNS env other t message w = updateGDNS env gDNS t message w ∧
    ∃ ext, (updateGDNS env gDNS t message w).2 = w ++ ext ∧
      ∀ (pre post : World) (obj : GlobalDNS) (result : Option Err),
        ext = pre ++ Event.update obj result :: post →
        ∃ (before : World) (latest : GlobalDNS),
          pre = before ++ [Event.get gDNS.Namespace gDNS.Name] ∧
          env.getNamespaced (numGets (w ++ before)) gDNS.Namespace gDNS.Name = .ok latest ∧
          obj.ProjectNames = t ∧
          obj.ResourceVersion = latest.ResourceVersion ∧
          obj.Namespace = latest.Namespace ∧
          obj.Name = latest.Name ∧
          obj.Members = latest.Members ∧
          obj.Annotations = latest.Annotations ∧
          obj.MultiClusterAppName = latest.MultiClusterAppName := by
  refine ⟨updateGDNS_identity_only env gDNS other t message w hns hname, ?_⟩
  obtain ⟨ext, he, hw⟩ := updateGDNS_writes env gDNS t message w
  refine ⟨ext, he, ?_⟩
  intro pre post obj result h
  obtain ⟨before, latest, h1, h2, h3⟩ := hw pre post obj result h
  subst h3
  exact ⟨before, latest, h1, h2, rfl, rfl, rfl, rfl, rfl, rfl, rfl⟩

/-- C17 witness: the caller holds revision `1` of `ns:dns`, the store holds
`storedRecord`; the run is the one the stored record itself would give. -/
theorem updateGDNS_submits_reread_record_witness :
    updateGDNS (holding (sampleEnv AccessType.OwnerAccess) storedRecord) storedRecord ["p1"]
        "removedProjects" []
      = updateGDNS (holding (sampleEnv AccessType.OwnerAccess) storedRecord)
          (sampleRecord ["p1", "p2"] "app1") ["p1"] "removedProjects" [] :=
  (updateGDNS_submits_reread_record (holding (sampleEnv AccessType.OwnerAccess) storedRecord)
    (sampleRecord ["p1", "p2"] "app1") storedRecord ["p1"] "removedProjects" [] rfl rfl).1

/-! ## The desired targets are computed once -/

@[simp] theorem submitted_append (w v : World) :
    submitted (w ++ v) = submitted w ++ submitted v := by
  simp [submitted]

@[simp] theorem submitted_nil : submitted [] = [] := rfl

@[simp] theorem submitted_cons (e : Event) (w : World) :
    submitted (e :: w)
      = (match e with | .update obj _ => [obj] | _ => []) ++ submitted w := by
  cases e <;> simp [submitted]

theorem updateGDNS_submitted (env : Env) (gDNS : GlobalDNS) (t : List String)
    (message : String) (w : World) :
    ∃ ext, (updateGDNS env gDNS t message w).2 = w ++ ext ∧
      (∀ o ∈ submitted ext, o.ProjectNames = t) ∧
      ((updateGDNS env gDNS t message w).1 = none →
        ∃ o : GlobalDNS, committed ext = [o] ∧ o.ProjectNames = t) := by
  obtain ⟨ext, he, hw⟩ := updateGDNS_writes env gDNS t message w
  refine ⟨ext, he, ?_, ?_⟩
  · intro o ho
    obtain ⟨e, hmem, hsome⟩ := List.mem_filterMap.1 ho
    cases e with
    | update obj result =>
      simp only [Option.some.injEq] at hsome
      subst hsome
      obtain ⟨pre, post, hsplit⟩ := List.append_of_mem hmem
      obtain ⟨before, latest, -, -, h3⟩ := hw pre post obj result hsplit
      rw [h3]
    | byID id => simp at hsome
    | get ns name => simp at hsome
    | response code body => simp at hsome
  · intro hok
    obtain ⟨latest, hc, -⟩ := updateGDNS_persists env gDNS t message w hok
    rw [he] at hc
    exact ⟨{ latest with ProjectNames := t }, by simpa using hc, rfl⟩

theorem handler_submitted (env : Env) (actionName : String) (request : APIContext)
    (w : World) (gDNS : GlobalDNS) (input : List String)
    (hd : OwnerDispatch env request w gDNS input) :
    ∃ ext, (ActionHandler env actionName request w).2 = w ++ ext ∧
      (∀ o ∈ submitted ext, o.ProjectNames
        = if actionName = addProjectsAction then
            input.filter (fun p => !decide (p ∈ gDNS.ProjectNames))
          else gDNS.ProjectNames.filter (fun p => !decide (p ∈ input))) ∧
      ((ActionHandler env actionName request w).1 = none →
        ∃ o : GlobalDNS, committed ext = [o] ∧ o.ProjectNames
          = if actionName = addProjectsAction then
              input.filter (fun p => !decide (p ∈ gDNS.ProjectNames))
            else gDNS.ProjectNames.filter (fun p => !decide (p ∈ input))) := by
  by_cases ha : actionName = addProjectsAction
  · subst ha
    by_cases hmca : gDNS.MultiClusterAppName = ""
    · cases hacc : env.checkCallerAccessToTargets request input with
      | some e =>
        obtain ⟨ns, name, -, hrun⟩ :=
          ActionHandler_add_denied env request w gDNS input hd hmca e hacc
        exact ⟨[Event.byID request.ID, Event.get ns name], by rw [hrun], by simp,
          by rw [hrun]; simp⟩
      | none =>
        obtain ⟨ns, name, -, hrun⟩ := ActionHandler_add env request w gDNS input hd hmca hacc
        obtain ⟨ext, he, hs, hc⟩ := updateGDNS_submitted env gDNS
          (input.filter (fun p => !decide (p ∈ gDNS.ProjectNames))) "addedProjects"
          (w ++ [Event.byID request.ID, Event.get ns name])
        refine ⟨[Event.byID request.ID, Event.get ns name] ++ ext, by rw [hrun, he]; simp,
          by simpa using hs, ?_⟩
        rw [hrun]
        simpa using hc
    · obtain ⟨ns, name, -, hrun⟩ := ActionHandler_add_bound env request w gDNS input hd hmca
      exact ⟨[Event.byID request.ID, Event.get ns name], by rw [hrun], by simp,
        by rw [hrun]; simp⟩
  · by_cases hrm : actionName = removeProjectsAction
    · subst hrm
      obtain ⟨ns, name, -, hrun⟩ := ActionHandler_remove env request w gDNS input hd
      obtain ⟨ext, he, hs, hc⟩ := updateGDNS_submitted env gDNS
        (gDNS.ProjectNames.filter (fun p => !decide (p ∈ input))) "removedProjects"
        (w ++ [Event.byID request.ID, Event.get ns name])
      refine ⟨[Event.byID request.ID, Event.get ns name] ++ ext, by rw [hrun, he]; simp,
        by simpa [ha] using hs, ?_⟩
      rw [hrun]
      simpa [ha] using hc
    · obtain ⟨ns, name, -, hrun⟩ :=
        ActionHandler_bad_action env actionName request w gDNS input hd ha hrm
      exact ⟨[Event.byID request.ID, Event.get ns name], by rw [hrun], by simp,
        by rw [hrun]; simp⟩

theorem reread_dispatch (first later : GlobalDNS) (input : List String)
    (hann : first.Annotations.lookup "field.cattle.io/creatorId" = some "u1") :
    OwnerDispatch (rereadEnv first later) (sampleRequest input) [] first input :=
  ⟨rfl, "ns", "dns", "u1", [(UpdateGlobalDNSTargetsInputFieldProjectIDs, input)],
    by show SplitN "ns:dns" ':' 2 = ["ns", "dns"]; decide, rfl, hann, rfl, rfl,
    by simp [UpdateGlobalDNSTargetsInputFieldProjectIDs]⟩

/-- C18: the desired target sequence depends only on the action, the record the
handler read before the retry loop and the decoded input.  For two runs of the
same action that read the same initial record and decode the same input, in
whatever environments (so whatever the re-reads of the retry loop return),
every object submitted in either run carries the same target sequence, all
attempts of one run submit the same sequence, and when both runs succeed they
persist the same sequence. -/
theorem persisted_targets_ignore_rereads (env1 env2 : Env) (actionName : String)
    (request1 request2 : APIContext) (w1 w2 : World) (gDNS : GlobalDNS)
    (input : List String)
    (h1 : OwnerDispatch env1 request1 w1 gDNS input)
    (h2 : OwnerDispatch env2 request2 w2 gDNS input) :
    ∃ ext1 ext2,
      (ActionHandler env1 actionName request1 w1).2 = w1 ++ ext1 ∧
      (ActionHandler env2 actionName request2 w2).2 = w2 ++ ext2 ∧
      (∀ o1 ∈ submitted ext1, ∀ o2 ∈ submitted ext2, o1.ProjectNames = o2.ProjectNames) ∧
      (∀ o ∈ submitted ext1, ∀ o' ∈ submitted ext1, o.ProjectNames = o'.ProjectNames) ∧
      ((ActionHandler env1 actionName request1 w1).1 = none →
        (ActionHandler env2 actionName request2 w2).1 = none →
        ∃ o1 o2 : GlobalDNS, committed ext1 = [o1] ∧ committed ext2 = [o2] ∧
          o1.ProjectNames = o2.ProjectNames) := by
  obtain ⟨ext1, he1, hs1, hc1⟩ := handler_submitted env1 actionName request1 w1 gDNS input h1
  obtain ⟨ext2, he2, hs2, hc2⟩ := handler_submitted env2 actionName request2 w2 gDNS input h2
  refine ⟨ext1, ext2, he1, he2, ?_, ?_, ?_⟩
  · intro o1 ho1 o2 ho2
    rw [hs1 o1 ho1, hs2 o2 ho2]
  · intro o ho o' ho'
    rw [hs1 o ho, hs1 o' ho']
  · intro hok1 hok2
    obtain ⟨o1, hco1, hp1⟩ := hc1 hok1
    obtain ⟨o2, hco2, hp2⟩ := hc2 hok2
    exact ⟨o1, o2, hco1, hco2, by rw [hp1, hp2]⟩

/-- C18 witness: removing `["p2"]` from `["p1", "p2"]` on a quiet store, and on
a store where the re-read returns `storedRecord`, whose targets somebody else
changed to `["p1", "p9"]`; the second run persists `["p1"]` on top of the
re-read record, so `p9` is overwritten. -/
theorem persisted_targets_ignore_rereads_witness :
    (∃ ext1 ext2,
      (ActionHandler (holding (sampleEnv AccessType.OwnerAccess)
          (sampleRecord ["p1", "p2"] "")) removeProjectsAction (sampleRequest ["p2"]) []).2
        = [] ++ ext1 ∧
      (ActionHandler (rereadEnv (sampleRecord ["p1", "p2"] "") storedRecord)
          removeProjectsAction (sampleRequest ["p2"]) []).2 = [] ++ ext2 ∧
      (∀ o1 ∈ submitted ext1, ∀ o2 ∈ submitted ext2, o1.ProjectNames = o2.ProjectNames) ∧
      (∀ o ∈ submitted ext1, ∀ o' ∈ submitted ext1, o.ProjectNames = o'.ProjectNames) ∧
      ((ActionHandler (holding (sampleEnv AccessType.OwnerAccess)
          (sampleRecord ["p1", "p2"] "")) removeProjectsAction (sampleRequest ["p2"]) []).1
          = none →
        (ActionHandler (rereadEnv (sampleRecord ["p1", "p2"] "") storedRecord)
          removeProjectsAction (sampleRequest ["p2"]) []).1 = none →
        ∃ o1 o2 : GlobalDNS, committed ext1 = [o1] ∧ committed ext2 = [o2] ∧
          o1.ProjectNames = o2.ProjectNames)) ∧
    committed (ActionHandler (rereadEnv (sampleRecord ["p1", "p2"] "") storedRecord)
        removeProjectsAction (sampleRequest ["p2"]) []).2
      = [{ storedRecord with ProjectNames := ["p1"] }] :=
  ⟨persisted_targets_ignore_rereads
    (holding (sampleEnv AccessType.OwnerAccess) (sampleRecord ["p1", "p2"] ""))
    (rereadEnv (sampleRecord ["p1", "p2"] "") storedRecord) removeProjectsAction
    (sampleRequest ["p2"]) (sampleRequest ["p2"]) [] [] (sampleRecord ["p1", "p2"] "")
    ["p2"] (sample_dispatch _ _ _ rfl) (reread_dispatch _ _ _ rfl), by decide⟩

/-! ## The remove path ignores the binding and the authorizer -/

theorem numGets_map_eraseBinding (w : World) : numGets (w.map eraseBinding) = numGets w := by
  induction w with
  | nil => rfl
  | cons e w ih => cases e <;> simp [eraseBinding, ih]

theorem numUpdates_map_eraseBinding (w : World) :
    numUpdates (w.map eraseBinding) = numUpdates w := by
  induction w with
  | nil => rfl
  | cons e w ih => cases e <;> simp [eraseBinding, ih]

theorem committed_map_eraseBinding (w : World) :
    (committed (w.map eraseBinding)).map GlobalDNS.ProjectNames
      = (committed w).map GlobalDNS.ProjectNames := by
  induction w with
  | nil => rfl
  | cons e w ih =>
    cases e with
    | update obj result => cases result <;> simp [eraseBinding, clearBinding, ih]
    | byID id => simp [eraseBinding, ih]
    | get ns name => simp [eraseBinding, ih]
    | response code body => simp [eraseBinding, ih]

theorem clearBinding_fields (r1 r2 : GlobalDNS) (h : clearBinding r1 = clearBinding r2) :
    r1.Namespace = r2.Namespace ∧ r1.Name = r2.Name ∧ r1.Annotations = r2.Annotations ∧
      r1.Members = r2.Members ∧ r1.ProjectNames = r2.ProjectNames := by
  cases r1; cases r2
  simp only [clearBinding, GlobalDNS.mk.injEq] at h
  simp [h]

theorem clearBinding_with_targets (r1 r2 : GlobalDNS) (t : List String)
    (h : clearBinding r1 = clearBinding r2) :
    clearBinding { r1 with ProjectNames := t } = clearBinding { r2 with ProjectNames := t } := by
  cases r1; cases r2
  simp only [clearBinding, GlobalDNS.mk.injEq] at h ⊢
  simp [h]

theorem read_agree (env1 env2 : Env) (hA : AgreeUpToBinding env1 env2) (n : Nat)
    (ns name : String) :
    (∃ e, env1.getNamespaced n ns name = .error e ∧ env2.getNamespaced n ns name = .error e) ∨
    (∃ r1 r2, env1.getNamespaced n ns name = .ok r1 ∧ env2.getNamespaced n ns name = .ok r2 ∧
      clearBinding r1 = clearBinding r2) := by
  have h := hA.2.2.2.1 n ns name
  cases h1 : env1.getNamespaced n ns name with
  | error e1 =>
    cases h2 : env2.getNamespaced n ns name with
    | error e2 =>
      rw [h1, h2] at h
      simp only [Except.map, Except.error.injEq] at h
      exact Or.inl ⟨e1, rfl, by rw [h]⟩
    | ok r2 =>
      rw [h1, h2] at h
      simp [Except.map] at h
  | ok r1 =>
    cases h2 : env2.getNamespaced n ns name with
    | error e2 =>
      rw [h1, h2] at h
      simp [Except.map] at h
    | ok r2 =>
      rw [h1, h2] at h
      simp only [Except.map, Except.ok.injEq] at h
      exact Or.inr ⟨r1, r2, rfl, rfl, h⟩

theorem updateAttempt_agree (env1 env2 : Env) (hA : AgreeUpToBinding env1 env2)
    (g1 g2 : GlobalDNS) (t : List String) (w1 w2 : World)
    (hns : g1.Namespace = g2.Namespace) (hname : g1.Name = g2.Name)
    (hw : w1.map eraseBinding = w2.map eraseBinding) :
    (updateAttempt env1 g1 t w1).1 = (updateAttempt env2 g2 t w2).1 ∧
    (updateAttempt env1 g1 t w1).2.map eraseBinding
      = (updateAttempt env2 g2 t w2).2.map eraseBinding := by
  have hg : numGets w1 = numGets w2 := by
    rw [← numGets_map_eraseBinding w1, hw, numGets_map_eraseBinding]
  have hu : numUpdates w1 = numUpdates w2 := by
    rw [← numUpdates_map_eraseBinding w1, hw, numUpdates_map_eraseBinding]
  unfold updateAttempt
  rw [← hns, ← hname, ← hg]
  rcases read_agree env1 env2 hA (numGets w1) g1.Namespace g1.Name with
    ⟨e, h1, h2⟩ | ⟨r1, r2, h1, h2, hr⟩
  · rw [h1, h2]
    simp [hw, eraseBinding]
  · rw [h1, h2]
    have hobj := clearBinding_with_targets r1 r2 t hr
    have hupd := hA.2.2.2.2 (numUpdates w1) _ _ hobj
    simp only [numUpdates_append, numUpdates_cons, numUpdates_nil, ← hu, Nat.add_zero]
    rw [← hupd]
    cases env1.update (numUpdates w1) { r1 with ProjectNames := t } with
    | none => simp [hw, eraseBinding, hobj]
    | some e => by_cases hc : IsConflict e = true <;> simp [hw, eraseBinding, hobj, hc]

theorem backoff_agree (env1 env2 : Env) (hA : AgreeUpToBinding env1 env2)
    (g1 g2 : GlobalDNS) (t : List String)
    (hns : g1.Namespace = g2.Namespace) (hname : g1.Name = g2.Name) (n : Nat)
    (last : Option Err) (w1 w2 : World)
    (hw : w1.map eraseBinding = w2.map eraseBinding) :
    (ExponentialBackoff n (updateAttempt env1 g1 t) last w1).1
      = (ExponentialBackoff n (updateAttempt env2 g2 t) last w2).1 ∧
    (ExponentialBackoff n (updateAttempt env1 g1 t) last w1).2.map eraseBinding
      = (ExponentialBackoff n (updateAttempt env2 g2 t) last w2).2.map eraseBinding := by
  induction n generalizing last w1 w2 with
  | zero => cases last <;> simp [ExponentialBackoff, hw]
  | succ n ih =>
    obtain ⟨hr, hl⟩ := updateAttempt_agree env1 env2 hA g1 g2 t w1 w2 hns hname hw
    cases h1 : updateAttempt env1 g1 t w1 with
    | mk r1 v1 =>
      cases h2 : updateAttempt env2 g2 t w2 with
      | mk r2 v2 =>
        rw [h1, h2] at hr hl
        simp only at hr hl
        subst hr
        obtain ⟨ok, err⟩ := r1
        cases err with
        | some e => simp [ExponentialBackoff, h1, h2, hl]
        | none =>
          cases ok with
          | true => simp [ExponentialBackoff, h1, h2, hl]
          | false =>
            have := ih none v1 v2 hl
            simpa [ExponentialBackoff, h1, h2] using this

theorem updateGDNS_agree (env1 env2 : Env) (hA : AgreeUpToBinding env1 env2)
    (g1 g2 : GlobalDNS) (t : List String) (message : String)
    (hns : g1.Namespace = g2.Namespace) (hname : g1.Name = g2.Name) (w1 w2 : World)
    (hw : w1.map eraseBinding = w2.map eraseBinding) :
    (updateGDNS env1 g1 t message w1).1 = (updateGDNS env2 g2 t message w2).1 ∧
    (updateGDNS env1 g1 t message w1).2.map eraseBinding
      = (updateGDNS env2 g2 t message w2).2.map eraseBinding := by
  obtain ⟨hr, hl⟩ := backoff_agree env1 env2 hA g1 g2 t hns hname backoffSteps none w1 w2 hw
  unfold updateGDNS
  cases h1 : ExponentialBackoff backoffSteps (updateAttempt env1 g1 t) none w1 with
  | mk r1 v1 =>
    cases h2 : ExponentialBackoff backoffSteps (updateAttempt env2 g2 t) none w2 with
    | mk r2 v2 =>
      rw [h1, h2] at hr hl
      simp only at hr hl
      subst hr
      cases r1 with
      | some e => simp [hl]
      | none => simp [hl, eraseBinding]

theorem ActionHandler_remove_agree (env1 env2 : Env) (hA : AgreeUpToBinding env1 env2)
    (request : APIContext) (w : World) :
    (ActionHandler env1 removeProjectsAction request w).1
      = (ActionHandler env2 removeProjectsAction request w).1 ∧
    (ActionHandler env1 removeProjectsAction request w).2.map eraseBinding
      = (ActionHandler env2 removeProjectsAction request w).2.map eraseBinding := by
  have hc := hA.1
  have hb := hA.2.1
  have ha := hA.2.2.1
  have hne : removeProjectsAction ≠ addProjectsAction := by decide
  unfold ActionHandler
  rw [← hc, ← hb, ← ha]
  cases h1 : env1.byID request.ID with
  | some e => simp
  | none =>
    cases h2 : SplitN request.ID ':' 2 with
    | nil => simp
    | cons ns l1 =>
      cases l1 with
      | nil => simp
      | cons name l2 =>
        cases l2 with
        | cons x l3 => simp
        | nil =>
          rcases read_agree env1 env2 hA
              (numGets (w ++ [Event.byID request.ID])) ns name with
            ⟨e, hr1, hr2⟩ | ⟨r1, r2, hr1, hr2, hr⟩
          · simp only [hr1, hr2]
            simp
          · obtain ⟨hns, hname, hann, hmem, hpn⟩ := clearBinding_fields r1 r2 hr
            simp only [hr1, hr2]
            rw [← hann, ← hname, ← hmem, ← hpn]
            cases h4 : r1.Annotations.lookup env1.creatorIDAnn with
            | none => simp [h4]
            | some creatorID =>
              cases h5 : env1.getAccessTypeOfCaller request.ImpersonateUser creatorID
                  r1.Name r1.Members with
              | error e => simp [h4, h5]
              | ok accessType =>
                by_cases h6 : accessType = AccessType.OwnerAccess
                · cases h7 : request.Body with
                  | error e => simp [h4, h5, h6, h7]
                  | ok body =>
                    simp only [h4, h5, h6, h7, hne, removeProjects]
                    simp only [ne_eq, not_true_eq_false, if_false, if_true]
                    rw [← hpn]
                    exact updateGDNS_agree env1 env2 hA r1 r2 _ _ hns hname _ _ rfl
                · simp [h4, h5, h6]

/-- C13: the outcome of `removeProjects` depends neither on the
multi-cluster-application binding of the record nor on the target authorizer.
Two runs on the same request in environments that differ at most in the
binding of the records the store returns and in the authorizer's answers
return the same result, produce the same log up to the binding of the
submitted objects, and persist the same target sequences. -/
theorem removeProjects_ignores_binding_and_authorizer (env1 env2 : Env)
    (request : APIContext) (w : World) (hA : AgreeUpToBinding env1 env2) :
    (ActionHandler env1 removeProjectsAction request w).1
      = (ActionHandler env2 removeProjectsAction request w).1 ∧
    (ActionHandler env1 removeProjectsAction request w).2.map eraseBinding
      = (ActionHandler env2 removeProjectsAction request w).2.map eraseBinding ∧
    (committed (ActionHandler env1 removeProjectsAction request w).2).map
        GlobalDNS.ProjectNames
      = (committed (ActionHandler env2 removeProjectsAction request w).2).map
        GlobalDNS.ProjectNames := by
  obtain ⟨hr, hl⟩ := ActionHandler_remove_agree env1 env2 hA request w
  refine ⟨hr, hl, ?_⟩
  rw [← committed_map_eraseBinding (ActionHandler env1 removeProjectsAction request w).2, hl,
    committed_map_eraseBinding]

/-- C13 witness: removing `["p2"]` from an unbound record with a permissive
authorizer, and from the same record bound to `app1` with an authorizer that
denies `p2`. -/
theorem removeProjects_ignores_binding_and_authorizer_witness :
    (ActionHandler (holding (sampleEnv AccessType.OwnerAccess) (sampleRecord ["p1", "p2"] ""))
        removeProjectsAction (sampleRequest ["p2"]) []).1
      = (ActionHandler (guardedEnv (sampleRecord ["p1", "p2"] "app1") ["p2"])
        removeProjectsAction (sampleRequest ["p2"]) []).1 ∧
    (ActionHandler (holding (sampleEnv AccessType.OwnerAccess) (sampleRecord ["p1", "p2"] ""))
        removeProjectsAction (sampleRequest ["p2"]) []).2.map eraseBinding
      = (ActionHandler (guardedEnv (sampleRecord ["p1", "p2"] "app1") ["p2"])
        removeProjectsAction (sampleRequest ["p2"]) []).2.map eraseBinding ∧
    (committed (ActionHandler (holding (sampleEnv AccessType.OwnerAccess)
        (sampleRecord ["p1", "p2"] "")) removeProjectsAction (sampleRequest ["p2"]) []).2).map
        GlobalDNS.ProjectNames
      = (committed (ActionHandler (guardedEnv (sampleRecord ["p1", "p2"] "app1") ["p2"])
        removeProjectsAction (sampleRequest ["p2"]) []).2).map GlobalDNS.ProjectNames :=
  removeProjects_ignores_binding_and_authorizer
    (holding (sampleEnv AccessType.OwnerAccess) (sampleRecord ["p1", "p2"] ""))
    (guardedEnv (sampleRecord ["p1", "p2"] "app1") ["p2"]) (sampleRequest ["p2"]) []
    ⟨rfl, rfl, rfl, fun _ _ _ => rfl, fun _ _ _ _ => rfl⟩

end GlobalDNSAction
